import Mathlib

/-!
# A model of the cypress plugin-execution bridge

This file gives a shallow embedding of
`packages/server/lib/plugins/child/run_plugins.js`: the `RunPlugins` event
registry (id allocation, the `"task"` merge rule, the `"dev-server:start"`
double-registration guard), the shared promise-wrapped invocation
(`wrapChildPromise`), the task sub-dispatch (`taskExecute`, `taskGetKeys`,
`taskGetBody`), and the configuration migration guard
(`wrapNonMigratedOptions`, `validateNonMigratedOptions`).

JavaScript objects are modelled as insertion-ordered association lists,
property writes as replace-in-place-or-append, and the `Object.defineProperty`
setter traps installed by the migration guard as a dedicated property slot.
Asynchronous handler invocation is modelled by `Except`: a handler either
resolves to a value or rejects with an error.
-/

namespace RunPluginsModel

/-! ## Association lists (JS object property tables)

A JS object is an insertion-ordered table of distinct keys.  `lookupKey`
reads a property, `setKey` models property assignment: it overwrites the
existing slot in place (keeping its enumeration position) or appends a new
slot at the end. -/

def lookupKey {K V : Type} [DecidableEq K] : List (K × V) → K → Option V
  | [], _ => none
  | p :: rest, k => if p.1 = k then some p.2 else lookupKey rest k

def containsKey {K V : Type} [DecidableEq K] (l : List (K × V)) (k : K) : Bool :=
  l.any (fun p => decide (p.1 = k))

def setKey {K V : Type} [DecidableEq K] (l : List (K × V)) (k : K) (v : V) :
    List (K × V) :=
  if containsKey l k then
    l.map (fun p => if p.1 = k then (k, v) else p)
  else
    l ++ [(k, v)]

/-- The keys of an association list, in enumeration order. -/
def keysOf {K V : Type} (l : List (K × V)) : List K := l.map Prod.fst

theorem containsKey_cons {K V : Type} [DecidableEq K] (p : K × V) (l : List (K × V)) (k : K) :
    containsKey (p :: l) k = (decide (p.1 = k) || containsKey l k) := by
  simp [containsKey, List.any_cons]

theorem containsKey_eq_isSome {K V : Type} [DecidableEq K] (l : List (K × V)) (k : K) :
    containsKey l k = (lookupKey l k).isSome := by
  induction l with
  | nil => simp [containsKey, lookupKey]
  | cons p rest ih =>
    rw [containsKey_cons]
    by_cases h : p.1 = k
    · simp [lookupKey, h]
    · simp [lookupKey, h, ih]

theorem lookupKey_eq_none_of_not_contains {K V : Type} [DecidableEq K]
    {l : List (K × V)} {k : K} (h : containsKey l k = false) : lookupKey l k = none := by
  rw [containsKey_eq_isSome] at h
  cases hl : lookupKey l k with
  | none => rfl
  | some v => rw [hl] at h; simp at h

theorem lookupKey_append {K V : Type} [DecidableEq K] (l₁ l₂ : List (K × V)) (k : K) :
    lookupKey (l₁ ++ l₂) k =
      (match lookupKey l₁ k with
        | some v => some v
        | none => lookupKey l₂ k) := by
  induction l₁ with
  | nil => simp [lookupKey]
  | cons p rest ih =>
    by_cases h : p.1 = k
    · simp [lookupKey, h]
    · simp [lookupKey, h, ih]

theorem lookupKey_map_set_self {K V : Type} [DecidableEq K]
    {l : List (K × V)} {k : K} (v : V) (h : containsKey l k = true) :
    lookupKey (l.map (fun p => if p.1 = k then (k, v) else p)) k = some v := by
  induction l with
  | nil => simp [containsKey] at h
  | cons p rest ih =>
    rw [containsKey_cons] at h
    by_cases hp : p.1 = k
    · simp [lookupKey, hp]
    · have hrest : containsKey rest k = true := by
        simpa [hp] using h
      simp [lookupKey, hp, ih hrest]

theorem containsKey_of_mem {K V : Type} [DecidableEq K]
    {l : List (K × V)} {p : K × V} (hp : p ∈ l) : containsKey l p.1 = true := by
  unfold containsKey
  rw [List.any_eq_true]
  exact ⟨p, hp, by simp⟩

theorem lookupKey_map_set_ne {K V : Type} [DecidableEq K]
    (l : List (K × V)) (k k' : K) (v : V) (h : k' ≠ k) :
    lookupKey (l.map (fun p => if p.1 = k then (k, v) else p)) k' = lookupKey l k' := by
  have hne : ¬ (k = k') := fun hk => h hk.symm
  induction l with
  | nil => simp [lookupKey]
  | cons p rest ih =>
    by_cases hp : p.1 = k
    · rw [List.map_cons, if_pos hp]
      simp only [lookupKey]
      rw [if_neg hne, if_neg (by rw [hp]; exact hne)]
      exact ih
    · rw [List.map_cons, if_neg hp]
      simp only [lookupKey]
      by_cases hk' : p.1 = k'
      · rw [if_pos hk', if_pos hk']
      · rw [if_neg hk', if_neg hk']
        exact ih

theorem lookupKey_setKey_self {K V : Type} [DecidableEq K]
    (l : List (K × V)) (k : K) (v : V) : lookupKey (setKey l k v) k = some v := by
  unfold setKey
  by_cases h : containsKey l k
  · rw [if_pos h]
    exact lookupKey_map_set_self v h
  · rw [if_neg h]
    rw [lookupKey_append]
    rw [lookupKey_eq_none_of_not_contains (Bool.eq_false_iff.mpr h)]
    simp [lookupKey]

theorem lookupKey_setKey_ne {K V : Type} [DecidableEq K]
    (l : List (K × V)) (k k' : K) (v : V) (h : k' ≠ k) :
    lookupKey (setKey l k v) k' = lookupKey l k' := by
  unfold setKey
  by_cases hc : containsKey l k
  · rw [if_pos hc]
    exact lookupKey_map_set_ne l k k' v h
  · rw [if_neg hc]
    rw [lookupKey_append]
    cases hl : lookupKey l k' with
    | some v' => simp
    | none =>
      have hne : ¬ (k = k') := fun hk => h hk.symm
      simp [lookupKey, hne]

theorem lookupKey_setKey {K V : Type} [DecidableEq K]
    (l : List (K × V)) (k k' : K) (v : V) :
    lookupKey (setKey l k v) k' = if k' = k then some v else lookupKey l k' := by
  by_cases h : k' = k
  · rw [if_pos h, h]
    exact lookupKey_setKey_self l k v
  · rw [if_neg h]
    exact lookupKey_setKey_ne l k k' v h

theorem keysOf_setKey_of_contains {K V : Type} [DecidableEq K]
    {l : List (K × V)} {k : K} (v : V) (h : containsKey l k = true) :
    keysOf (setKey l k v) = keysOf l := by
  unfold setKey
  rw [if_pos h]
  unfold keysOf
  rw [List.map_map]
  apply List.map_congr_left
  intro p _
  by_cases hp : p.1 = k
  · simp [hp]
  · simp [hp]

theorem keysOf_setKey_of_not_contains {K V : Type} [DecidableEq K]
    {l : List (K × V)} {k : K} (v : V) (h : containsKey l k = false) :
    keysOf (setKey l k v) = keysOf l ++ [k] := by
  unfold setKey
  rw [if_neg (by simp [h])]
  simp [keysOf]

theorem setKey_setKey {K V : Type} [DecidableEq K]
    (l : List (K × V)) (k : K) (v v' : V) :
    setKey (setKey l k v) k v' = setKey l k v' := by
  unfold setKey
  by_cases h : containsKey l k
  · rw [if_pos h]
    have hc : containsKey (l.map (fun p => if p.1 = k then (k, v) else p)) k = true := by
      rw [containsKey_eq_isSome, lookupKey_map_set_self v h]
      rfl
    rw [if_pos hc, if_pos h, List.map_map]
    apply List.map_congr_left
    intro p _
    by_cases hp : p.1 = k
    · simp [hp]
    · simp [hp]
  · rw [if_neg h]
    have hc : containsKey (l ++ [(k, v)]) k = true := by
      rw [containsKey_eq_isSome, lookupKey_append]
      rw [lookupKey_eq_none_of_not_contains (Bool.eq_false_iff.mpr h)]
      simp [lookupKey]
    rw [if_pos hc, if_neg h]
    rw [List.map_append]
    congr 1
    · conv_rhs => rw [← List.map_id l]
      apply List.map_congr_left
      intro p hp
      have hpk : p.1 ≠ k := by
        intro hk
        have hmem := containsKey_of_mem hp
        rw [hk] at hmem
        rw [hmem] at h
        exact h rfl
      simp [hpk]
    · simp

/-! ## Merging property tables (lodash `_.extend` and `_.intersection`)

`taskMerge` in `run_plugins.js` merges a newly registered `"task"` mapping
into the existing one with `_.extend(target, events)`: `target`'s slots keep
their positions, colliding keys take `events`'s value, and keys only in
`events` are appended. -/

def extendObj {K V : Type} [DecidableEq K] (target events : List (K × V)) :
    List (K × V) :=
  target.map (fun p =>
    match lookupKey events p.1 with
    | some v => (p.1, v)
    | none => p)
  ++ events.filter (fun p => !containsKey target p.1)

theorem mem_keysOf_iff_contains {K V : Type} [DecidableEq K]
    (l : List (K × V)) (k : K) : k ∈ keysOf l ↔ containsKey l k = true := by
  unfold keysOf containsKey
  rw [List.any_eq_true, List.mem_map]
  constructor
  · rintro ⟨p, hp, hk⟩
    exact ⟨p, hp, by simp [hk]⟩
  · rintro ⟨p, hp, hk⟩
    simp at hk
    exact ⟨p, hp, hk⟩

theorem keysOf_map_extend {K V : Type} [DecidableEq K] (t e : List (K × V)) :
    keysOf (t.map (fun p =>
      match lookupKey e p.1 with
      | some v => (p.1, v)
      | none => p)) = keysOf t := by
  unfold keysOf
  rw [List.map_map]
  apply List.map_congr_left
  intro p _
  cases h : lookupKey e p.1 <;> simp [h]

theorem mem_keysOf_extendObj_left {K V : Type} [DecidableEq K]
    {t e : List (K × V)} {k : K} (h : k ∈ keysOf t) : k ∈ keysOf (extendObj t e) := by
  unfold extendObj
  unfold keysOf
  rw [List.map_append, List.mem_append]
  left
  rw [← keysOf_map_extend t e] at h
  exact h

theorem mem_keysOf_extendObj_right {K V : Type} [DecidableEq K]
    {t e : List (K × V)} {k : K} (h : k ∈ keysOf e) : k ∈ keysOf (extendObj t e) := by
  by_cases hc : containsKey t k = true
  · exact mem_keysOf_extendObj_left ((mem_keysOf_iff_contains t k).mpr hc)
  · unfold extendObj keysOf
    rw [List.map_append, List.mem_append]
    right
    rw [List.mem_map]
    obtain ⟨p, hp, hpk⟩ := List.mem_map.mp h
    refine ⟨p, ?_, hpk⟩
    rw [List.mem_filter]
    refine ⟨hp, ?_⟩
    rw [hpk]
    simp [hc]

theorem lookupKey_map_extend {K V : Type} [DecidableEq K]
    {t e : List (K × V)} {k : K} {v : V}
    (hv : lookupKey e k = some v) (hc : containsKey t k = true) :
    lookupKey (t.map (fun p =>
      match lookupKey e p.1 with
      | some w => (p.1, w)
      | none => p)) k = some v := by
  induction t with
  | nil => simp [containsKey] at hc
  | cons p rest ih =>
    rw [containsKey_cons] at hc
    by_cases hp : p.1 = k
    · rw [List.map_cons]
      rw [show (match lookupKey e p.1 with
            | some w => (p.1, w)
            | none => p) = (p.1, v) by rw [hp, hv]]
      simp [lookupKey, hp]
    · rw [List.map_cons]
      have hfst : (match lookupKey e p.1 with
          | some w => (p.1, w)
          | none => p).1 = p.1 := by
        cases lookupKey e p.1 <;> rfl
      have hrest : containsKey rest k = true := by simpa [hp] using hc
      simp only [lookupKey, hfst, hp, if_false]
      exact ih hrest

theorem lookupKey_extendObj_both {K V : Type} [DecidableEq K]
    {t e : List (K × V)} {k : K}
    (hct : containsKey t k = true) (hce : containsKey e k = true) :
    lookupKey (extendObj t e) k = lookupKey e k := by
  have hs : (lookupKey e k).isSome := by rw [← containsKey_eq_isSome]; exact hce
  obtain ⟨v, hv⟩ := Option.isSome_iff_exists.mp hs
  unfold extendObj
  rw [lookupKey_append, lookupKey_map_extend hv hct, hv]

/-! ## JavaScript values

`GVal` models the JS values this module manipulates.  Objects are
insertion-ordered property tables.  The `trap` constructor models a property
slot holding the setter-only accessor installed by
`Object.defineProperty(opts, key, { set: throwInvalidOptionError.bind(null, keyForError) })`:
writing to such a slot throws a `MIGRATED_OPTION_INVALID` error and reading
it yields `undefined` (the accessor has no getter).  A `trap` occurs only as
a property slot, never as a first-class value. -/

inductive GVal where
  | undef
  | jsNull
  | bool (b : Bool)
  | num (n : Int)
  | str (s : String)
  | arr (elems : List GVal)
  | obj (props : List (String × GVal))
  | trap (keyForError : String)

/-- JS truthiness (`trap` is never tested: reads yield `undef` instead). -/
def truthy : GVal → Bool
  | .undef => false
  | .jsNull => false
  | .bool b => b
  | .num n => n != 0
  | .str s => s != ""
  | .arr _ => true
  | .obj _ => true
  | .trap _ => false

/-- The raw property slot of an object value (`none` for non-objects). -/
def slotOf (v : GVal) (k : String) : Option GVal :=
  match v with
  | .obj props => lookupKey props k
  | _ => none

/-- Property read `v[k]`.  A setter-only accessor slot reads as `undefined`;
reading a property of a primitive yields `undefined` for the keys this module
touches (callers guard against `null`/`undefined` bases). -/
def getField (v : GVal) (k : String) : GVal :=
  match v with
  | .obj props =>
    match lookupKey props k with
    | some (.trap _) => .undef
    | some w => w
    | none => .undef
  | _ => GVal.undef

def isObjB : GVal → Bool
  | .obj _ => true
  | _ => false

/-! ## The event registry (`RunPlugins` state and `registerChildEvent`)

Handlers are opaque callables of type `C`; the `"task"` handler is instead a
mapping from task names to callables, so a handler is either a plain callable
or a property table of callables. -/

inductive Handler (C : Type) where
  | fn (f : C)
  | obj (mapping : List (String × C))
deriving DecidableEq

/-- `_.keys` of a handler: a plain function has no own enumerable
properties. -/
def hkeys {C : Type} : Handler C → List String
  | .fn _ => []
  | .obj m => keysOf m

/-- `_.extend(target, events)` on handlers.  An `.fn` source contributes no
own enumerable properties, so the target is returned unchanged; an `.fn`
target (never the case for `"task"`, whose handlers are property tables of
callables) is likewise returned unchanged, since a function carrying extra
properties is not representable here. -/
def hextend {C : Type} : Handler C → Handler C → Handler C
  | .obj t, .obj e => .obj (extendObj t e)
  | t, _ => t

/-- The duplicate list `_.intersection(_.keys(target), _.keys(events))`
computed by `taskMerge`.  (lodash also deduplicates the intersection; the
key list of a JS object is duplicate-free, so the plain filter has the same
elements.) -/
def taskMergeDuplicates {C : Type} (target events : Handler C) : List String :=
  (hkeys target).filter (fun k => (hkeys events).contains k)

/-- The outcome of the external `validateEvent(event, handler, config)`
collaborator: `isValid`, and whether the `userEvents` field of the result is
truthy (which selects which error `registerChildEvent` reports). -/
structure ValidationResult where
  isValid : Bool
  hasUserEvents : Bool
deriving DecidableEq

/-- The error kinds constructed by this module. -/
inductive CypressErr where
  /-- `PLUGINS_INVALID_EVENT_NAME_ERROR` -/
  | pluginsInvalidEventName
  /-- `CONFIG_FILE_SETUP_NODE_EVENTS_ERROR` -/
  | configFileSetupNodeEventsErr
  /-- `SETUP_NODE_EVENTS_DO_NOT_SUPPORT_DEV_SERVER` -/
  | devServerDouble
  /-- `MIGRATED_OPTION_INVALID`, carrying the offending key path -/
  | migratedOption (key : String)
  /-- a JavaScript `TypeError` (e.g. reading a property of `undefined`, or
  `Object.defineProperty` applied to a primitive) -/
  | typeErr
deriving DecidableEq

/-- Observable side effects of a registration call: an
`ipc.send('setupTestingType:error', …)` message, or the non-fatal
`DUPLICATE_TASK_KEY` warning logged by `taskMerge`. -/
inductive RegEffect where
  | ipcError (e : CypressErr)
  | warnDuplicateTaskKey (duplicates : List String)
deriving DecidableEq

/-- A registration record `{ event, handler }` stored in
`registeredEventsById`. -/
structure EventEntry (C : Type) where
  event : String
  handler : Handler C
deriving DecidableEq

/-- The mutable state of a `RunPlugins` instance:
`eventIdCount`, the `registrations` projection list `{event, eventId}`, and
the two lookup tables. -/
structure RegState (C : Type) where
  eventIdCount : Nat
  registrations : List (String × Nat)
  registeredEventsById : List (Nat × EventEntry C)
  registeredEventsByName : List (String × Nat)
deriving DecidableEq

def initState (C : Type) : RegState C := ⟨0, [], [], []⟩

/-- Truthiness of `this.registeredEventsByName[event]` (a number or
`undefined`): the id `0` is falsy. -/
def truthyId : Option Nat → Bool
  | some n => n != 0
  | none => false

/-- One call of the `registerChildEvent` callback (run_plugins.js:64-108).
`validate` is the external `validateEvent` collaborator with the session's
`initialConfig` already applied.  Returns the updated state and the emitted
effects, or `none` for the unreachable synchronous `TypeError` that reading
`this.registeredEventsById[existingEventId].handler` would raise if the id
recorded in `registeredEventsByName` had no entry in
`registeredEventsById`. -/
def registerChildEvent {C : Type} (validate : String → Handler C → ValidationResult)
    (s : RegState C) (event : String) (handler : Handler C) :
    Option (RegState C × List RegEffect) :=
  let v := validate event handler
  if v.isValid = false then
    some (s, [RegEffect.ipcError
      (if v.hasUserEvents then .pluginsInvalidEventName else .configFileSetupNodeEventsErr)])
  else if event = "dev-server:start" ∧
      truthyId (lookupKey s.registeredEventsByName event) = true then
    some (s, [RegEffect.ipcError .devServerDouble])
  else if event = "task" ∧
      truthyId (lookupKey s.registeredEventsByName event) = true then
    match lookupKey s.registeredEventsByName event with
    | none => none
    | some existingEventId =>
      match lookupKey s.registeredEventsById existingEventId with
      | none => none
      | some entry =>
        let duplicates := taskMergeDuplicates entry.handler handler
        let merged := hextend entry.handler handler
        some ({ s with registeredEventsById :=
                  setKey s.registeredEventsById existingEventId ⟨event, merged⟩ },
              if duplicates.isEmpty then [] else [RegEffect.warnDuplicateTaskKey duplicates])
  else
    let eventId := s.eventIdCount
    some ({ eventIdCount := eventId + 1,
            registrations := s.registrations ++ [(event, eventId)],
            registeredEventsById := setKey s.registeredEventsById eventId ⟨event, handler⟩,
            registeredEventsByName := setKey s.registeredEventsByName event eventId },
          [])

/-- A sequence of registration calls, threading the state (effects
dropped). -/
def runCalls {C : Type} (validate : String → Handler C → ValidationResult) :
    RegState C → List (String × Handler C) → Option (RegState C)
  | s, [] => some s
  | s, (e, h) :: rest =>
    (registerChildEvent validate s e h).bind fun p => runCalls validate p.1 rest

/-- `load` pre-registers the two internal protocol events before running the
user's setup routine (run_plugins.js:111-112).  `s0` is the state right after
those two calls. -/
def IsSessionStart {C : Type} (validate : String → Handler C → ValidationResult)
    (s0 : RegState C) : Prop :=
  ∃ hb hk : Handler C,
    (validate "_get:task:body" hb).isValid = true ∧
    (validate "_get:task:keys" hk).isValid = true ∧
    runCalls validate (initState C) [("_get:task:body", hb), ("_get:task:keys", hk)] = some s0

/-- A registry state arising in a session: reached from the
pre-registrations of the two internal protocol events by some sequence of
registration calls. -/
def SessionReachable {C : Type} (validate : String → Handler C → ValidationResult)
    (s : RegState C) : Prop :=
  ∃ s0 calls, IsSessionStart validate s0 ∧ runCalls validate s0 calls = some s

/-! ### Branch characterizations of `registerChildEvent` -/

theorem registerChildEvent_invalid {C : Type}
    (validate : String → Handler C → ValidationResult) (s : RegState C)
    (e : String) (h : Handler C) (hv : (validate e h).isValid = false) :
    registerChildEvent validate s e h =
      some (s, [RegEffect.ipcError
        (if (validate e h).hasUserEvents then .pluginsInvalidEventName
         else .configFileSetupNodeEventsErr)]) := by
  simp only [registerChildEvent]
  rw [if_pos hv]

theorem registerChildEvent_devServerDup {C : Type}
    (validate : String → Handler C → ValidationResult) (s : RegState C)
    (h : Handler C) (hv : (validate "dev-server:start" h).isValid = true)
    (ht : truthyId (lookupKey s.registeredEventsByName "dev-server:start") = true) :
    registerChildEvent validate s "dev-server:start" h =
      some (s, [RegEffect.ipcError .devServerDouble]) := by
  simp only [registerChildEvent]
  rw [if_neg (by simp [hv]), if_pos ⟨trivial, ht⟩]

theorem registerChildEvent_taskMerge {C : Type}
    (validate : String → Handler C → ValidationResult) (s : RegState C)
    (h : Handler C) {i : Nat} {entry : EventEntry C}
    (hv : (validate "task" h).isValid = true)
    (hname : lookupKey s.registeredEventsByName "task" = some i) (hi : i ≠ 0)
    (hid : lookupKey s.registeredEventsById i = some entry) :
    registerChildEvent validate s "task" h =
      some ({ s with registeredEventsById :=
                setKey s.registeredEventsById i ⟨"task", hextend entry.handler h⟩ },
            if (taskMergeDuplicates entry.handler h).isEmpty then []
            else [RegEffect.warnDuplicateTaskKey (taskMergeDuplicates entry.handler h)]) := by
  have ht : truthyId (lookupKey s.registeredEventsByName "task") = true := by
    rw [hname]
    simpa [truthyId] using hi
  simp only [registerChildEvent]
  rw [if_neg (by simp [hv])]
  rw [if_neg (by rintro ⟨he, _⟩; exact absurd he (by decide))]
  rw [if_pos ⟨trivial, ht⟩]
  simp only [hname, hid]

theorem registerChildEvent_taskMerge_missing {C : Type}
    (validate : String → Handler C → ValidationResult) (s : RegState C)
    (h : Handler C) {i : Nat}
    (hv : (validate "task" h).isValid = true)
    (hname : lookupKey s.registeredEventsByName "task" = some i) (hi : i ≠ 0)
    (hid : lookupKey s.registeredEventsById i = none) :
    registerChildEvent validate s "task" h = none := by
  have ht : truthyId (lookupKey s.registeredEventsByName "task") = true := by
    rw [hname]
    simpa [truthyId] using hi
  simp only [registerChildEvent]
  rw [if_neg (by simp [hv])]
  rw [if_neg (by rintro ⟨he, _⟩; exact absurd he (by decide))]
  rw [if_pos ⟨trivial, ht⟩]
  simp only [hname, hid]

theorem registerChildEvent_fresh {C : Type}
    (validate : String → Handler C → ValidationResult) (s : RegState C)
    (e : String) (h : Handler C) (hv : (validate e h).isValid = true)
    (hdev : ¬(e = "dev-server:start" ∧
        truthyId (lookupKey s.registeredEventsByName e) = true))
    (htask : ¬(e = "task" ∧
        truthyId (lookupKey s.registeredEventsByName e) = true)) :
    registerChildEvent validate s e h =
      some ({ eventIdCount := s.eventIdCount + 1,
              registrations := s.registrations ++ [(e, s.eventIdCount)],
              registeredEventsById :=
                setKey s.registeredEventsById s.eventIdCount ⟨e, h⟩,
              registeredEventsByName :=
                setKey s.registeredEventsByName e s.eventIdCount }, []) := by
  simp only [registerChildEvent]
  rw [if_neg (by simp [hv]), if_neg hdev, if_neg htask]

/-- Any successful registration call leaves the state unchanged, performs the
in-place `"task"` merge, or performs a fresh registration. -/
theorem registerChildEvent_shape {C : Type}
    {validate : String → Handler C → ValidationResult} {s : RegState C}
    {e : String} {h : Handler C} {s' : RegState C} {effs : List RegEffect}
    (hreg : registerChildEvent validate s e h = some (s', effs)) :
    s' = s
  ∨ (∃ i entry, lookupKey s.registeredEventsByName e = some i ∧
       lookupKey s.registeredEventsById i = some entry ∧
       s' = { s with registeredEventsById :=
                setKey s.registeredEventsById i ⟨e, hextend entry.handler h⟩ })
  ∨ s' = { eventIdCount := s.eventIdCount + 1,
           registrations := s.registrations ++ [(e, s.eventIdCount)],
           registeredEventsById := setKey s.registeredEventsById s.eventIdCount ⟨e, h⟩,
           registeredEventsByName := setKey s.registeredEventsByName e s.eventIdCount } := by
  by_cases hv : (validate e h).isValid = false
  · left
    rw [registerChildEvent_invalid validate s e h hv] at hreg
    have heq := Option.some_inj.mp hreg
    rw [Prod.mk.injEq] at heq
    exact heq.1.symm
  · have hv' : (validate e h).isValid = true := by
      revert hv
      cases (validate e h).isValid <;> simp
    by_cases hdev : e = "dev-server:start" ∧
        truthyId (lookupKey s.registeredEventsByName e) = true
    · left
      obtain ⟨he, ht⟩ := hdev
      subst he
      rw [registerChildEvent_devServerDup validate s h hv' ht] at hreg
      have heq := Option.some_inj.mp hreg
      rw [Prod.mk.injEq] at heq
      exact heq.1.symm
    · by_cases htask : e = "task" ∧
          truthyId (lookupKey s.registeredEventsByName e) = true
      · obtain ⟨he, ht⟩ := htask
        subst he
        cases hname : lookupKey s.registeredEventsByName "task" with
        | none => rw [hname] at ht; simp [truthyId] at ht
        | some i =>
          have hi : i ≠ 0 := by
            rw [hname] at ht
            simpa [truthyId] using ht
          cases hid : lookupKey s.registeredEventsById i with
          | none =>
            rw [registerChildEvent_taskMerge_missing validate s h hv' hname hi hid] at hreg
            exact absurd hreg (by simp)
          | some entry =>
            right; left
            rw [registerChildEvent_taskMerge validate s h hv' hname hi hid] at hreg
            have heq := Option.some_inj.mp hreg
            rw [Prod.mk.injEq] at heq
            exact ⟨i, entry, rfl, hid, heq.1.symm⟩
      · right; right
        rw [registerChildEvent_fresh validate s e h hv' hdev htask] at hreg
        have heq := Option.some_inj.mp hreg
        rw [Prod.mk.injEq] at heq
        exact heq.1.symm

/-! ### Registry invariants -/

theorem lookupKey_mem {K V : Type} [DecidableEq K]
    {l : List (K × V)} {k : K} {v : V} (h : lookupKey l k = some v) : (k, v) ∈ l := by
  induction l with
  | nil => simp [lookupKey] at h
  | cons p rest ih =>
    by_cases hp : p.1 = k
    · rw [lookupKey, if_pos hp] at h
      have hv2 : v = p.2 := by injection h with h'; exact h'.symm
      have hkv : (k, v) = p := by rw [hv2, ← hp]
      rw [hkv]
      exact List.mem_cons_self _ _
    · rw [lookupKey, if_neg hp] at h
      exact List.mem_cons_of_mem _ (ih h)

theorem containsKey_false_of_keys_lt {V : Type}
    {l : List (Nat × V)} {n : Nat} (h : ∀ p ∈ l, p.1 < n) : containsKey l n = false := by
  cases hc : containsKey l n with
  | false => rfl
  | true =>
    rw [containsKey_eq_isSome] at hc
    obtain ⟨v, hv⟩ := Option.isSome_iff_exists.mp hc
    have := h _ (lookupKey_mem hv)
    simp at this

theorem mem_setKey_of_contains {K V : Type} [DecidableEq K]
    {l : List (K × V)} {k : K} {v : V} {p : K × V}
    (hc : containsKey l k = true) (hp : p ∈ setKey l k v) :
    p = (k, v) ∨ p ∈ l := by
  unfold setKey at hp
  rw [if_pos hc] at hp
  obtain ⟨q, hq, hqp⟩ := List.mem_map.mp hp
  by_cases hq1 : q.1 = k
  · rw [if_pos hq1] at hqp
    left
    exact hqp.symm
  · rw [if_neg hq1] at hqp
    right
    rw [← hqp]
    exact hq

theorem mem_setKey_of_not_contains {K V : Type} [DecidableEq K]
    {l : List (K × V)} {k : K} {v : V} {p : K × V}
    (hc : containsKey l k = false) (hp : p ∈ setKey l k v) :
    p ∈ l ∨ p = (k, v) := by
  unfold setKey at hp
  rw [if_neg (by simp [hc])] at hp
  rcases List.mem_append.mp hp with hl | hr
  · left; exact hl
  · right; simpa using hr

/-- Invariant of the registry from a fresh `RunPlugins` instance: the
projection list records ids `0, 1, 2, …` in call order, and
`registeredEventsById` has distinct keys, all below the counter. -/
structure RegInv {C : Type} (s : RegState C) : Prop where
  regs_range : s.registrations.map Prod.snd = List.range s.eventIdCount
  byId_lt : ∀ p ∈ s.registeredEventsById, p.1 < s.eventIdCount
  byId_nodup : (s.registeredEventsById.map Prod.fst).Nodup

theorem regInv_init (C : Type) : RegInv (initState C) :=
  ⟨by simp [initState], by simp [initState], by simp [initState]⟩

theorem regInv_register {C : Type}
    {validate : String → Handler C → ValidationResult} {s : RegState C}
    {e : String} {h : Handler C} {s' : RegState C} {effs : List RegEffect}
    (hinv : RegInv s) (hreg : registerChildEvent validate s e h = some (s', effs)) :
    RegInv s' := by
  rcases registerChildEvent_shape hreg with hs | ⟨i, entry, hname, hid, hs⟩ | hs
  · rw [hs]; exact hinv
  · subst hs
    have hc : containsKey s.registeredEventsById i = true := by
      rw [containsKey_eq_isSome, hid]; rfl
    refine ⟨hinv.regs_range, ?_, ?_⟩
    · intro p hp
      rcases mem_setKey_of_contains hc hp with hpe | hpl
      · rw [hpe]
        exact hinv.byId_lt (i, entry) (lookupKey_mem hid)
      · exact hinv.byId_lt _ hpl
    · show ((setKey s.registeredEventsById i _).map Prod.fst).Nodup
      rw [show (setKey s.registeredEventsById i ⟨e, hextend entry.handler h⟩).map Prod.fst
            = keysOf (setKey s.registeredEventsById i ⟨e, hextend entry.handler h⟩) from rfl]
      rw [keysOf_setKey_of_contains _ hc]
      exact hinv.byId_nodup
  · subst hs
    have hc : containsKey s.registeredEventsById s.eventIdCount = false :=
      containsKey_false_of_keys_lt hinv.byId_lt
    refine ⟨?_, ?_, ?_⟩
    · show (s.registrations ++ [(e, s.eventIdCount)]).map Prod.snd = List.range (s.eventIdCount + 1)
      rw [List.map_append, hinv.regs_range, List.range_succ]
      rfl
    · intro p hp
      rcases mem_setKey_of_not_contains hc hp with hpl | hpe
      · exact Nat.lt_succ_of_lt (hinv.byId_lt _ hpl)
      · rw [hpe]
        exact Nat.lt_succ_self _
    · show ((setKey s.registeredEventsById s.eventIdCount _).map Prod.fst).Nodup
      rw [show (setKey s.registeredEventsById s.eventIdCount ⟨e, h⟩).map Prod.fst
            = keysOf (setKey s.registeredEventsById s.eventIdCount ⟨e, h⟩) from rfl]
      rw [keysOf_setKey_of_not_contains _ hc]
      rw [List.nodup_append]
      refine ⟨hinv.byId_nodup, List.nodup_singleton _, ?_⟩
      intro a ha hb
      simp at hb
      subst hb
      obtain ⟨p, hp, hpa⟩ := List.mem_map.mp ha
      have := hinv.byId_lt _ hp
      rw [hpa] at this
      exact Nat.lt_irrefl _ this

theorem regInv_runCalls {C : Type}
    {validate : String → Handler C → ValidationResult} :
    ∀ {calls : List (String × Handler C)} {s s' : RegState C},
    RegInv s → runCalls validate s calls = some s' → RegInv s'
  | [], s, s', hinv, hrun => by
    rw [runCalls] at hrun
    exact Option.some_inj.mp hrun ▸ hinv
  | (e, h) :: rest, s, s', hinv, hrun => by
    rw [runCalls] at hrun
    cases hreg : registerChildEvent validate s e h with
    | none => rw [hreg] at hrun; simp at hrun
    | some p =>
      rw [hreg, Option.some_bind] at hrun
      exact regInv_runCalls (regInv_register hinv hreg) hrun

/-- Invariant of any state arising in a session (after the two internal
pre-registrations): the counter is at least `2`, and every event other than
the two internal protocol events that is recorded in `registeredEventsByName`
has id at least `2` — in particular a truthy (nonzero) one. -/
structure SessInv {C : Type} (s : RegState C) : Prop where
  count_ge2 : 2 ≤ s.eventIdCount
  name_ge2 : ∀ e i, lookupKey s.registeredEventsByName e = some i →
      e ≠ "_get:task:body" → e ≠ "_get:task:keys" → 2 ≤ i

theorem sessInv_register {C : Type}
    {validate : String → Handler C → ValidationResult} {s : RegState C}
    {e : String} {h : Handler C} {s' : RegState C} {effs : List RegEffect}
    (hinv : SessInv s) (hreg : registerChildEvent validate s e h = some (s', effs)) :
    SessInv s' := by
  rcases registerChildEvent_shape hreg with hs | ⟨i, entry, hname, hid, hs⟩ | hs
  · rw [hs]; exact hinv
  · subst hs
    exact ⟨hinv.count_ge2, hinv.name_ge2⟩
  · subst hs
    refine ⟨Nat.le_succ_of_le hinv.count_ge2, ?_⟩
    intro e' i hlook h1 h2
    rw [lookupKey_setKey] at hlook
    by_cases he : e' = e
    · rw [if_pos he] at hlook
      have : s.eventIdCount = i := by injection hlook
      rw [← this]
      exact hinv.count_ge2
    · rw [if_neg he] at hlook
      exact hinv.name_ge2 e' i hlook h1 h2

theorem sessInv_runCalls {C : Type}
    {validate : String → Handler C → ValidationResult} :
    ∀ {calls : List (String × Handler C)} {s s' : RegState C},
    SessInv s → runCalls validate s calls = some s' → SessInv s'
  | [], s, s', hinv, hrun => by
    rw [runCalls] at hrun
    exact Option.some_inj.mp hrun ▸ hinv
  | (e, h) :: rest, s, s', hinv, hrun => by
    rw [runCalls] at hrun
    cases hreg : registerChildEvent validate s e h with
    | none => rw [hreg] at hrun; simp at hrun
    | some p =>
      rw [hreg, Option.some_bind] at hrun
      exact sessInv_runCalls (sessInv_register hinv hreg) hrun

theorem sessInv_sessionStart {C : Type}
    {validate : String → Handler C → ValidationResult} {s0 : RegState C}
    (hstart : IsSessionStart validate s0) : SessInv s0 := by
  obtain ⟨hb, hk, hvb, hvk, hrun⟩ := hstart
  rw [runCalls] at hrun
  rw [registerChildEvent_fresh validate (initState C) "_get:task:body" hb hvb
    (by rintro ⟨he, _⟩; exact absurd he (by decide))
    (by rintro ⟨he, _⟩; exact absurd he (by decide)), Option.some_bind] at hrun
  rw [runCalls] at hrun
  rw [registerChildEvent_fresh validate _ "_get:task:keys" hk hvk
    (by rintro ⟨he, _⟩; exact absurd he (by decide))
    (by rintro ⟨he, _⟩; exact absurd he (by decide)), Option.some_bind] at hrun
  rw [runCalls] at hrun
  have hs0 := Option.some_inj.mp hrun
  rw [← hs0]
  refine ⟨le_refl 2, ?_⟩
  intro e i hlook h1 h2
  rw [show (initState C).eventIdCount = 0 from rfl] at hlook
  rw [lookupKey_setKey] at hlook
  by_cases hek : e = "_get:task:keys"
  · exact absurd hek h2
  · rw [if_neg hek] at hlook
    rw [lookupKey_setKey] at hlook
    by_cases heb : e = "_get:task:body"
    · exact absurd heb h1
    · rw [if_neg heb] at hlook
      rw [show lookupKey (initState C).registeredEventsByName e = none from rfl] at hlook
      cases hlook

theorem sessionReachable_inv {C : Type}
    {validate : String → Handler C → ValidationResult} {s : RegState C}
    (hreach : SessionReachable validate s) : SessInv s := by
  obtain ⟨s0, calls, hstart, hrun⟩ := hreach
  exact sessInv_runCalls (sessInv_sessionStart hstart) hrun

/-! ## Claim C1 -/

/-- C1: In every session, registering a `"task"` handler when a `"task"`
Registration already exists merges in place: the stored mapping afterwards
contains every key of both mappings, the new handler's callable wins on every
shared key, exactly one duplicate-key warning is emitted when the key sets
intersect and none when they are disjoint, no new Registration and no new id
is created, and the registration-projection list is unchanged. -/
theorem C1_task_merge_in_place {C : Type}
    (validate : String → Handler C → ValidationResult) (s : RegState C)
    (mOld mNew : List (String × C)) (i : Nat) (entry : EventEntry C)
    (hreach : SessionReachable validate s)
    (hname : lookupKey s.registeredEventsByName "task" = some i)
    (hid : lookupKey s.registeredEventsById i = some entry)
    (hold : entry.handler = Handler.obj mOld)
    (hvalid : (validate "task" (Handler.obj mNew)).isValid = true) :
    ∃ s' effs,
      registerChildEvent validate s "task" (Handler.obj mNew) = some (s', effs)
      ∧ s'.registrations = s.registrations
      ∧ s'.eventIdCount = s.eventIdCount
      ∧ s'.registeredEventsByName = s.registeredEventsByName
      ∧ keysOf s'.registeredEventsById = keysOf s.registeredEventsById
      ∧ lookupKey s'.registeredEventsById i =
          some ⟨"task", Handler.obj (extendObj mOld mNew)⟩
      ∧ (∀ k, k ∈ keysOf mOld ∨ k ∈ keysOf mNew → k ∈ keysOf (extendObj mOld mNew))
      ∧ (∀ k, k ∈ keysOf mOld → k ∈ keysOf mNew →
          lookupKey (extendObj mOld mNew) k = lookupKey mNew k)
      ∧ ((∃ k, k ∈ keysOf mOld ∧ k ∈ keysOf mNew) →
          ∃ ds, effs = [RegEffect.warnDuplicateTaskKey ds])
      ∧ ((∀ k, k ∈ keysOf mOld → k ∉ keysOf mNew) → effs = []) := by
  have hInv := sessionReachable_inv hreach
  have hi2 : 2 ≤ i := hInv.name_ge2 "task" i hname (by decide) (by decide)
  have hi : i ≠ 0 := by omega
  have hc : containsKey s.registeredEventsById i = true := by
    rw [containsKey_eq_isSome, hid]; rfl
  have hdups : taskMergeDuplicates entry.handler (Handler.obj mNew)
      = (keysOf mOld).filter (fun k => (keysOf mNew).contains k) := by
    rw [hold]; rfl
  refine ⟨_, _, registerChildEvent_taskMerge validate s (Handler.obj mNew) hvalid hname hi hid,
    rfl, rfl, rfl, keysOf_setKey_of_contains _ hc, ?_, ?_, ?_, ?_, ?_⟩
  · rw [lookupKey_setKey_self, hold]
    rfl
  · intro k hk
    rcases hk with hk | hk
    · exact mem_keysOf_extendObj_left hk
    · exact mem_keysOf_extendObj_right hk
  · intro k h1 h2
    exact lookupKey_extendObj_both
      ((mem_keysOf_iff_contains mOld k).mp h1) ((mem_keysOf_iff_contains mNew k).mp h2)
  · rintro ⟨k, hk1, hk2⟩
    have hkmem : k ∈ taskMergeDuplicates entry.handler (Handler.obj mNew) := by
      rw [hdups]
      exact List.mem_filter.mpr ⟨hk1, List.elem_eq_true_of_mem hk2⟩
    have hne : taskMergeDuplicates entry.handler (Handler.obj mNew) ≠ [] :=
      List.ne_nil_of_mem hkmem
    have hemp : (taskMergeDuplicates entry.handler (Handler.obj mNew)).isEmpty = false := by
      rw [← Bool.not_eq_true, List.isEmpty_iff]
      exact hne
    refine ⟨taskMergeDuplicates entry.handler (Handler.obj mNew), ?_⟩
    rw [if_neg (by simp [hemp])]
  · intro hdisj
    have hnil : taskMergeDuplicates entry.handler (Handler.obj mNew) = [] := by
      rw [hdups]
      apply List.filter_eq_nil_iff.mpr
      intro a ha
      have : a ∉ keysOf mNew := hdisj a ha
      simp only [Bool.not_eq_true]
      cases hcon : (keysOf mNew).contains a with
      | false => rfl
      | true => exact absurd (List.mem_of_elem_eq_true hcon) this
    rw [if_pos (by rw [List.isEmpty_iff]; exact hnil)]

/-! ## Witness fixtures: a tiny concrete session -/

/-- A validator that accepts every event (models `validateEvent` succeeding). -/
def wValidate : String → Handler Unit → ValidationResult := fun _ _ => ⟨true, false⟩

/-- The state right after the two internal pre-registrations. -/
def wSession0 : RegState Unit :=
  ⟨2, [("_get:task:body", 0), ("_get:task:keys", 1)],
   [(0, ⟨"_get:task:body", .fn ()⟩), (1, ⟨"_get:task:keys", .fn ()⟩)],
   [("_get:task:body", 0), ("_get:task:keys", 1)]⟩

/-- `wSession0` after registering a `"task"` mapping `{a}` (id 2). -/
def wTaskState : RegState Unit :=
  ⟨3, [("_get:task:body", 0), ("_get:task:keys", 1), ("task", 2)],
   [(0, ⟨"_get:task:body", .fn ()⟩), (1, ⟨"_get:task:keys", .fn ()⟩),
    (2, ⟨"task", .obj [("a", ())]⟩)],
   [("_get:task:body", 0), ("_get:task:keys", 1), ("task", 2)]⟩

theorem wTaskState_reachable : SessionReachable wValidate wTaskState :=
  ⟨wSession0, [("task", Handler.obj [("a", ())])],
   ⟨.fn (), .fn (), rfl, rfl, by decide⟩, by decide⟩

/-- Witness for C1 at a concrete session: the existing `"task"` mapping
`{a}` is merged with a new mapping `{a, b}` (overlapping key `a`). -/
theorem C1_witness :
    ∃ s' effs,
      registerChildEvent wValidate wTaskState "task" (Handler.obj [("a", ()), ("b", ())])
        = some (s', effs)
      ∧ s'.registrations = wTaskState.registrations
      ∧ s'.eventIdCount = wTaskState.eventIdCount
      ∧ s'.registeredEventsByName = wTaskState.registeredEventsByName
      ∧ keysOf s'.registeredEventsById = keysOf wTaskState.registeredEventsById
      ∧ lookupKey s'.registeredEventsById 2 =
          some ⟨"task", Handler.obj (extendObj [("a", ())] [("a", ()), ("b", ())])⟩
      ∧ (∀ k, k ∈ keysOf [("a", ())] ∨ k ∈ keysOf [("a", ()), ("b", ())] →
          k ∈ keysOf (extendObj [("a", ())] [("a", ()), ("b", ())]))
      ∧ (∀ k, k ∈ keysOf [("a", ())] → k ∈ keysOf [("a", ()), ("b", ())] →
          lookupKey (extendObj [("a", ())] [("a", ()), ("b", ())]) k
            = lookupKey [("a", ()), ("b", ())] k)
      ∧ ((∃ k, k ∈ keysOf [("a", ())] ∧ k ∈ keysOf [("a", ()), ("b", ())]) →
          ∃ ds, effs = [RegEffect.warnDuplicateTaskKey ds])
      ∧ ((∀ k, k ∈ keysOf [("a", ())] → k ∉ keysOf [("a", ()), ("b", ())]) → effs = []) :=
  C1_task_merge_in_place wValidate wTaskState [("a", ())] [("a", ()), ("b", ())] 2
    ⟨"task", Handler.obj [("a", ())]⟩ wTaskState_reachable (by decide) (by decide) rfl rfl

/-! ## Claim C2 -/

/-- C2: Across any sequence of registration calls in one session, the ids of
successful non-merge registrations are exactly `0, 1, 2, …` in call order
(the projection list's ids equal `List.range eventIdCount`), no id is
assigned to two Registrations or reused; and a single call advances the
counter by one exactly on the fresh path, while the `"task"`-merge path, the
validation-rejection path and the dev-server-duplicate path leave the counter
(and the projection list) unchanged. -/
theorem C2_id_allocation {C : Type}
    (validate : String → Handler C → ValidationResult) :
    (∀ (calls : List (String × Handler C)) (s : RegState C),
        runCalls validate (initState C) calls = some s →
        s.registrations.map Prod.snd = List.range s.eventIdCount
        ∧ (s.registrations.map Prod.snd).Nodup
        ∧ (s.registeredEventsById.map Prod.fst).Nodup)
    ∧ (∀ (s : RegState C) (e : String) (h : Handler C) (s' : RegState C)
        (effs : List RegEffect),
        registerChildEvent validate s e h = some (s', effs) →
        ((validate e h).isValid = false → s' = s)
        ∧ ((validate e h).isValid = true → e = "dev-server:start" →
            truthyId (lookupKey s.registeredEventsByName e) = true → s' = s)
        ∧ ((validate e h).isValid = true → e = "task" →
            truthyId (lookupKey s.registeredEventsByName e) = true →
            s'.eventIdCount = s.eventIdCount ∧ s'.registrations = s.registrations)
        ∧ ((validate e h).isValid = true →
            ¬(e = "dev-server:start" ∧
               truthyId (lookupKey s.registeredEventsByName e) = true) →
            ¬(e = "task" ∧
               truthyId (lookupKey s.registeredEventsByName e) = true) →
            s'.eventIdCount = s.eventIdCount + 1
            ∧ s'.registrations = s.registrations ++ [(e, s.eventIdCount)])) := by
  constructor
  · intro calls s hrun
    have hInv := regInv_runCalls (regInv_init C) hrun
    refine ⟨hInv.regs_range, ?_, hInv.byId_nodup⟩
    rw [hInv.regs_range]
    exact List.nodup_range _
  · intro s e h s' effs hreg
    refine ⟨?_, ?_, ?_, ?_⟩
    · intro hv
      rw [registerChildEvent_invalid validate s e h hv] at hreg
      have heq := Option.some_inj.mp hreg
      rw [Prod.mk.injEq] at heq
      exact heq.1.symm
    · intro hv he ht
      subst he
      rw [registerChildEvent_devServerDup validate s h hv ht] at hreg
      have heq := Option.some_inj.mp hreg
      rw [Prod.mk.injEq] at heq
      exact heq.1.symm
    · intro hv he ht
      subst he
      cases hname : lookupKey s.registeredEventsByName "task" with
      | none => rw [hname] at ht; simp [truthyId] at ht
      | some i =>
        have hi : i ≠ 0 := by
          rw [hname] at ht
          simpa [truthyId] using ht
        cases hid : lookupKey s.registeredEventsById i with
        | none =>
          rw [registerChildEvent_taskMerge_missing validate s h hv hname hi hid] at hreg
          exact absurd hreg (by simp)
        | some entry =>
          rw [registerChildEvent_taskMerge validate s h hv hname hi hid] at hreg
          have heq := Option.some_inj.mp hreg
          rw [Prod.mk.injEq] at heq
          rw [← heq.1]
          exact ⟨rfl, rfl⟩
    · intro hv hdev htask
      rw [registerChildEvent_fresh validate s e h hv hdev htask] at hreg
      have heq := Option.some_inj.mp hreg
      rw [Prod.mk.injEq] at heq
      rw [← heq.1]
      exact ⟨rfl, rfl⟩

/-- Witness for C2: the concrete three-call session yields projection ids
`[0, 1, 2] = range 3`, and the fresh `"task"` registration from the
session-start state allocated id `2` and advanced the counter from 2 to 3. -/
theorem C2_witness :
    (wTaskState.registrations.map Prod.snd = List.range wTaskState.eventIdCount
      ∧ (wTaskState.registrations.map Prod.snd).Nodup
      ∧ (wTaskState.registeredEventsById.map Prod.fst).Nodup)
    ∧ (wTaskState.eventIdCount = wSession0.eventIdCount + 1
      ∧ wTaskState.registrations
          = wSession0.registrations ++ [("task", wSession0.eventIdCount)]) :=
  ⟨(C2_id_allocation wValidate).1
      [("_get:task:body", .fn ()), ("_get:task:keys", .fn ()),
       ("task", .obj [("a", ())])] wTaskState (by decide),
   ((C2_id_allocation wValidate).2 wSession0 "task" (.obj [("a", ())]) wTaskState []
      (by decide)).2.2.2 rfl (by decide) (by decide)⟩

/-! ## Claims C5 and C6 -/

/-- C5: A registration call rejected by the validator, and a rejected second
`"dev-server:start"` registration, each report their error immediately over
the channel, return normally (no synchronous throw), leave the registry
unchanged, and leave every subsequent registration call processed exactly as
if the rejected call had not happened. -/
theorem C5_rejection_isolated {C : Type}
    (validate : String → Handler C → ValidationResult) (s : RegState C)
    (e : String) (h : Handler C) :
    ((validate e h).isValid = false →
      registerChildEvent validate s e h =
        some (s, [RegEffect.ipcError
          (if (validate e h).hasUserEvents then .pluginsInvalidEventName
           else .configFileSetupNodeEventsErr)])
      ∧ ∀ rest, runCalls validate s ((e, h) :: rest) = runCalls validate s rest)
    ∧ ((validate e h).isValid = true → e = "dev-server:start" →
        truthyId (lookupKey s.registeredEventsByName e) = true →
        registerChildEvent validate s e h =
          some (s, [RegEffect.ipcError .devServerDouble])
        ∧ ∀ rest, runCalls validate s ((e, h) :: rest) = runCalls validate s rest) := by
  constructor
  · intro hv
    refine ⟨registerChildEvent_invalid validate s e h hv, ?_⟩
    intro rest
    rw [runCalls, registerChildEvent_invalid validate s e h hv, Option.some_bind]
  · intro hv he ht
    subst he
    refine ⟨registerChildEvent_devServerDup validate s h hv ht, ?_⟩
    intro rest
    rw [runCalls, registerChildEvent_devServerDup validate s h hv ht, Option.some_bind]

/-- C6: In every session in which a `"dev-server:start"` Registration already
exists, a second (validator-accepted) `"dev-server:start"` registration call
reports the dedicated double-registration error and returns the state
untouched: no id is allocated and the existing Registration is unchanged. -/
theorem C6_dev_server_double {C : Type}
    (validate : String → Handler C → ValidationResult) (s : RegState C)
    (h : Handler C) (i : Nat)
    (hreach : SessionReachable validate s)
    (hname : lookupKey s.registeredEventsByName "dev-server:start" = some i)
    (hvalid : (validate "dev-server:start" h).isValid = true) :
    registerChildEvent validate s "dev-server:start" h
      = some (s, [RegEffect.ipcError .devServerDouble]) := by
  have hInv := sessionReachable_inv hreach
  have hi2 : 2 ≤ i := hInv.name_ge2 _ i hname (by decide) (by decide)
  have ht : truthyId (lookupKey s.registeredEventsByName "dev-server:start") = true := by
    rw [hname]
    simpa [truthyId] using (by omega : i ≠ 0)
  exact registerChildEvent_devServerDup validate s h hvalid ht

/-- A validator that rejects the event name `"nope"` (with a truthy
`userEvents` list) and accepts everything else. -/
def wValidateRej : String → Handler Unit → ValidationResult :=
  fun e _ => if e = "nope" then ⟨false, true⟩ else ⟨true, false⟩

/-- `wSession0` after registering `"dev-server:start"` (id 2). -/
def wDevState : RegState Unit :=
  ⟨3, [("_get:task:body", 0), ("_get:task:keys", 1), ("dev-server:start", 2)],
   [(0, ⟨"_get:task:body", .fn ()⟩), (1, ⟨"_get:task:keys", .fn ()⟩),
    (2, ⟨"dev-server:start", .fn ()⟩)],
   [("_get:task:body", 0), ("_get:task:keys", 1), ("dev-server:start", 2)]⟩

theorem wDevState_reachable : SessionReachable wValidate wDevState :=
  ⟨wSession0, [("dev-server:start", Handler.fn ())],
   ⟨.fn (), .fn (), rfl, rfl, by decide⟩, by decide⟩

/-- Witness for C5: a rejected `"nope"` registration from the fresh state,
and a rejected second `"dev-server:start"` registration, each report and
leave the state unchanged, and a subsequent `"task"` call runs as if the
rejected call had not happened. -/
theorem C5_witness :
    (registerChildEvent wValidateRej (initState Unit) "nope" (.fn ())
        = some (initState Unit, [RegEffect.ipcError .pluginsInvalidEventName])
      ∧ runCalls wValidateRej (initState Unit)
            [("nope", .fn ()), ("task", .obj [("a", ())])]
          = runCalls wValidateRej (initState Unit) [("task", .obj [("a", ())])])
    ∧ (registerChildEvent wValidate wDevState "dev-server:start" (.fn ())
        = some (wDevState, [RegEffect.ipcError .devServerDouble])
      ∧ runCalls wValidate wDevState
            [("dev-server:start", .fn ()), ("task", .obj [("a", ())])]
          = runCalls wValidate wDevState [("task", .obj [("a", ())])]) :=
  ⟨⟨((C5_rejection_isolated wValidateRej (initState Unit) "nope" (.fn ())).1 rfl).1,
    ((C5_rejection_isolated wValidateRej (initState Unit) "nope" (.fn ())).1 rfl).2
      [("task", .obj [("a", ())])]⟩,
   ⟨((C5_rejection_isolated wValidate wDevState "dev-server:start" (.fn ())).2
        rfl rfl (by decide)).1,
    ((C5_rejection_isolated wValidate wDevState "dev-server:start" (.fn ())).2
        rfl rfl (by decide)).2 [("task", .obj [("a", ())])]⟩⟩

/-- Witness for C6 at the concrete session with `"dev-server:start"`
registered under id 2. -/
theorem C6_witness :
    registerChildEvent wValidate wDevState "dev-server:start" (.fn ())
      = some (wDevState, [RegEffect.ipcError .devServerDouble]) :=
  C6_dev_server_double wValidate wDevState (.fn ()) 2 wDevState_reachable (by decide) rfl

/-! ## The shared promise-wrapped invocation (`wrapChildPromise`) -/

def UNDEFINED_SERIALIZED : String := "__cypress_undefined__"

/-- `if (value === undefined) { value = UNDEFINED_SERIALIZED }`
(run_plugins.js:186-188). -/
def serializeUndefined : GVal → GVal
  | .undef => .str UNDEFINED_SERIALIZED
  | v => v

/-- The ids object `{ eventId, invocationId }` carried by an execute
command. -/
structure Ids where
  eventId : Nat
  invocationId : String
deriving DecidableEq

/-- An `ipc.send` on channel `promise:fulfilled:${invocationId}`: on success
the arguments are `(null, value)` (no error, some value), on rejection
`(serializedError)` (the value argument is absent, i.e. `undefined`). -/
structure Sent (SE : Type) where
  channel : String
  error : Option SE
  value : Option GVal

/-- The settled outcome message for one invocation result. -/
def sentOf {E SE : Type} (serializeError : E → SE) (res : Except E GVal)
    (invocationId : String) : Sent SE :=
  match res with
  | .ok v => ⟨"promise:fulfilled:" ++ invocationId, none, some (serializeUndefined v)⟩
  | .error err => ⟨"promise:fulfilled:" ++ invocationId, some (serializeError err), none⟩

/-- `wrapChildPromise(invoke, ids, args)` (run_plugins.js:179-194): invoke
the handler, await it, substitute the undefined sentinel on a resolved
`undefined`, and report the outcome under the caller-supplied invocation id.
A handler invocation either resolves (`Except.ok`) or rejects
(`Except.error`); `serializeError` models `util.serializeError`. -/
def wrapChildPromise {E SE : Type} (serializeError : E → SE)
    (invoke : Nat → List GVal → Except E GVal) (ids : Ids)
    (args : List GVal) : Sent SE :=
  sentOf serializeError (invoke ids.eventId args) ids.invocationId

/-! ## Task sub-dispatch -/

/-- The decode of the no-task-argument marker (run_plugins.js:229-233):
`if (arg && arg.__cypress_task_no_argument__) { arg = undefined }`. -/
def decodeTaskArg (arg : GVal) : GVal :=
  if truthy arg && truthy (getField arg "__cypress_task_no_argument__") then .undef
  else arg

/-- `_.get(this.registeredEventsById, eventId + '.handler.' + task)`:
the callable bound to `task` in the looked-up Registration's mapping
(`none` when the Registration, or the key, is missing, or the handler is a
plain callable with no such own property). -/
def taskLookup {C : Type} (s : RegState C) (task : String) (eventId : Nat) : Option C :=
  match lookupKey s.registeredEventsById eventId with
  | some entry =>
    match entry.handler with
    | .obj m => lookupKey m task
    | .fn _ => none
  | none => none

/-- `taskExecute(ids, args)` (run_plugins.js:225-246): `args[0]` is the task
name, `args[1]` the raw argument.  `isFn` models `_.isFunction` and `callFn`
the application of a callable to its argument list. -/
def taskExecute {C E SE : Type} (isFn : C → Bool)
    (callFn : C → List GVal → Except E GVal) (serializeError : E → SE)
    (s : RegState C) (ids : Ids) (task : String) (rawArg : GVal) : Sent SE :=
  let arg := decodeTaskArg rawArg
  wrapChildPromise serializeError
    (fun eventId args =>
      match taskLookup s task eventId with
      | some hdl =>
        if isFn hdl then callFn hdl args else .ok (.str "__cypress_unhandled__")
      | none => .ok (.str "__cypress_unhandled__"))
    ids [arg]

/-- `_.find(this.registeredEventsById, { event: 'task' })`, scanning entries
in id order (ids are allocated in increasing order, so enumeration order is
insertion order). -/
def findTaskEntry {C : Type} (s : RegState C) : Option (EventEntry C) :=
  (s.registeredEventsById.find? (fun p => p.2.event == "task")).map Prod.snd

/-- `taskGetKeys(ids)` (run_plugins.js:208-213).  `.error .typeErr` models
the synchronous `TypeError` raised by reading `.handler` of `undefined` when
no `"task"` Registration exists. -/
def taskGetKeys {C E SE : Type} (serializeError : E → SE) (s : RegState C)
    (ids : Ids) : Except CypressErr (Sent SE) :=
  match findTaskEntry s with
  | none => .error .typeErr
  | some entry =>
    .ok (sentOf serializeError
      (Except.ok (GVal.arr ((hkeys entry.handler).map GVal.str))) ids.invocationId)

/-- `taskGetBody(ids, args)` (run_plugins.js:196-206): resolves to the task
handler's source text (`toSource` models `Function.prototype.toString`) when
`args[0]` names a callable, else the empty string. -/
def taskGetBody {C E SE : Type} (isFn : C → Bool) (toSource : C → String)
    (serializeError : E → SE) (s : RegState C) (ids : Ids) (event : String) :
    Except CypressErr (Sent SE) :=
  match findTaskEntry s with
  | none => .error .typeErr
  | some entry =>
    let fn :=
      match entry.handler with
      | .obj m => lookupKey m event
      | .fn _ => none
    let body : String :=
      match fn with
      | some f => if isFn f then toSource f else ""
      | none => ""
    .ok (sentOf serializeError (Except.ok (GVal.str body)) ids.invocationId)

theorem serializeUndefined_of_ne {v : GVal} (h : v ≠ .undef) :
    serializeUndefined v = v := by
  cases v with
  | undef => exact absurd rfl h
  | jsNull => rfl
  | bool b => rfl
  | num n => rfl
  | str s => rfl
  | arr l => rfl
  | obj l => rfl
  | trap k => rfl

theorem taskExecute_unhandled {C E SE : Type} (isFn : C → Bool)
    (callFn : C → List GVal → Except E GVal) (serializeError : E → SE)
    (s : RegState C) (ids : Ids) (task : String) (rawArg : GVal)
    (h : taskLookup s task ids.eventId = none ∨
      ∃ hdl, taskLookup s task ids.eventId = some hdl ∧ isFn hdl = false) :
    taskExecute isFn callFn serializeError s ids task rawArg =
      ⟨"promise:fulfilled:" ++ ids.invocationId, none,
        some (.str "__cypress_unhandled__")⟩ := by
  simp only [taskExecute, wrapChildPromise]
  rcases h with h | ⟨hdl, h, hfn⟩
  · rw [h]
    rfl
  · rw [h]
    show sentOf serializeError
        (if isFn hdl = true then callFn hdl [decodeTaskArg rawArg]
         else Except.ok (GVal.str "__cypress_unhandled__")) ids.invocationId = _
    rw [if_neg (by simp [hfn])]
    rfl

theorem taskExecute_eq_sentOf {C E SE : Type} (isFn : C → Bool)
    (callFn : C → List GVal → Except E GVal) (serializeError : E → SE)
    (s : RegState C) (ids : Ids) (task : String) (rawArg : GVal) {hdl : C}
    (hlook : taskLookup s task ids.eventId = some hdl) (hfn : isFn hdl = true) :
    taskExecute isFn callFn serializeError s ids task rawArg =
      sentOf serializeError (callFn hdl [decodeTaskArg rawArg]) ids.invocationId := by
  simp only [taskExecute, wrapChildPromise]
  rw [hlook]
  show sentOf serializeError
      (if isFn hdl = true then callFn hdl [decodeTaskArg rawArg]
       else Except.ok (GVal.str "__cypress_unhandled__")) ids.invocationId = _
  rw [if_pos hfn]

/-! ## Claim C4 -/

/-- C4: For every invocation routed through the shared promise-wrapped
invocation: a handler resolving to `undefined` is reported with the fixed
undefined-sentinel string in place of the value and a null error; a handler
resolving to any other value is reported with that value unchanged and a
null error; a rejecting handler is reported with the serialized error and no
value; and in every case the outcome is reported under the caller-supplied
invocationId. -/
theorem C4_wrapChildPromise_outcomes {E SE : Type} (serializeError : E → SE)
    (invoke : Nat → List GVal → Except E GVal) (ids : Ids) (args : List GVal) :
    (invoke ids.eventId args = .ok .undef →
      wrapChildPromise serializeError invoke ids args =
        ⟨"promise:fulfilled:" ++ ids.invocationId, none,
          some (.str UNDEFINED_SERIALIZED)⟩)
    ∧ (∀ v, invoke ids.eventId args = .ok v → v ≠ .undef →
      wrapChildPromise serializeError invoke ids args =
        ⟨"promise:fulfilled:" ++ ids.invocationId, none, some v⟩)
    ∧ (∀ err, invoke ids.eventId args = .error err →
      wrapChildPromise serializeError invoke ids args =
        ⟨"promise:fulfilled:" ++ ids.invocationId, some (serializeError err), none⟩) := by
  refine ⟨?_, ?_, ?_⟩
  · intro h
    simp only [wrapChildPromise, h]
    rfl
  · intro v h hv
    simp only [wrapChildPromise, h, sentOf]
    rw [serializeUndefined_of_ne hv]
  · intro err h
    simp only [wrapChildPromise, h]
    rfl

/-- Models `util.serializeError` on an opaque error value. -/
def wSerialize : String → String := fun msg => msg

/-- Witness for C4 at three concrete handlers: one resolving to `undefined`,
one resolving to `5`, one rejecting. -/
theorem C4_witness :
    (wrapChildPromise wSerialize (fun _ _ => .ok .undef) ⟨2, "A"⟩ []
        = ⟨"promise:fulfilled:" ++ "A", none, some (.str UNDEFINED_SERIALIZED)⟩)
    ∧ (wrapChildPromise wSerialize (fun _ _ => .ok (.num 5)) ⟨2, "B"⟩ []
        = ⟨"promise:fulfilled:" ++ "B", none, some (.num 5)⟩)
    ∧ (wrapChildPromise wSerialize (fun _ _ => .error "boom") ⟨2, "C"⟩ []
        = ⟨"promise:fulfilled:" ++ "C", some (wSerialize "boom"), none⟩) :=
  ⟨(C4_wrapChildPromise_outcomes wSerialize (fun _ _ => .ok .undef) ⟨2, "A"⟩ []).1 rfl,
   (C4_wrapChildPromise_outcomes wSerialize (fun _ _ => .ok (.num 5)) ⟨2, "B"⟩ []).2.1
     (.num 5) rfl (fun hh => GVal.noConfusion hh),
   (C4_wrapChildPromise_outcomes wSerialize (fun _ _ => .error "boom") ⟨2, "C"⟩ []).2.2
     "boom" rfl⟩

/-! ## Claim C7 -/

/-- C7: A task invocation whose task name does not map to a callable in the
`"task"` Registration's mapping (either no binding, or a binding that is not
callable) resolves — null error — to the fixed unhandled-task marker; when
the name maps to a callable, that callable is invoked with exactly the
single decoded argument and its settled result is reported. -/
theorem C7_task_unhandled_or_invoke {C E SE : Type} (isFn : C → Bool)
    (callFn : C → List GVal → Except E GVal) (serializeError : E → SE)
    (s : RegState C) (ids : Ids) (task : String) (rawArg : GVal) :
    ((taskLookup s task ids.eventId = none ∨
        ∃ hdl, taskLookup s task ids.eventId = some hdl ∧ isFn hdl = false) →
      taskExecute isFn callFn serializeError s ids task rawArg =
        ⟨"promise:fulfilled:" ++ ids.invocationId, none,
          some (.str "__cypress_unhandled__")⟩)
    ∧ (∀ hdl, taskLookup s task ids.eventId = some hdl → isFn hdl = true →
      taskExecute isFn callFn serializeError s ids task rawArg =
        sentOf serializeError (callFn hdl [decodeTaskArg rawArg]) ids.invocationId) :=
  ⟨taskExecute_unhandled isFn callFn serializeError s ids task rawArg,
   fun _ hlook hfn => taskExecute_eq_sentOf isFn callFn serializeError s ids task rawArg hlook hfn⟩

/-- A concrete registry over `C := Bool`, where the callable semantics is:
`true` is a function, `false` is a non-callable mapping value. -/
def wTaskStateB : RegState Bool :=
  ⟨3, [("_get:task:body", 0), ("_get:task:keys", 1), ("task", 2)],
   [(0, ⟨"_get:task:body", .fn true⟩), (1, ⟨"_get:task:keys", .fn true⟩),
    (2, ⟨"task", .obj [("a", true), ("nv", false)]⟩)],
   [("_get:task:body", 0), ("_get:task:keys", 1), ("task", 2)]⟩

def wIsFn : Bool → Bool := fun b => b

/-- A callable semantics that echoes its argument list. -/
def wCallEcho : Bool → List GVal → Except String GVal := fun _ args => .ok (.arr args)

/-- Witness for C7: an unbound name and a non-callable binding both resolve
to the unhandled marker; the callable bound to `"a"` receives exactly the
decoded argument. -/
theorem C7_witness :
    (taskExecute wIsFn wCallEcho wSerialize wTaskStateB ⟨2, "A"⟩ "missing" (.num 7)
        = ⟨"promise:fulfilled:" ++ "A", none, some (.str "__cypress_unhandled__")⟩)
    ∧ (taskExecute wIsFn wCallEcho wSerialize wTaskStateB ⟨2, "B"⟩ "nv" (.num 7)
        = ⟨"promise:fulfilled:" ++ "B", none, some (.str "__cypress_unhandled__")⟩)
    ∧ (taskExecute wIsFn wCallEcho wSerialize wTaskStateB ⟨2, "C"⟩ "a" (.num 7)
        = sentOf wSerialize (wCallEcho true [decodeTaskArg (.num 7)]) "C") :=
  ⟨(C7_task_unhandled_or_invoke wIsFn wCallEcho wSerialize wTaskStateB ⟨2, "A"⟩
      "missing" (.num 7)).1 (Or.inl rfl),
   (C7_task_unhandled_or_invoke wIsFn wCallEcho wSerialize wTaskStateB ⟨2, "B"⟩
      "nv" (.num 7)).1 (Or.inr ⟨false, rfl, rfl⟩),
   (C7_task_unhandled_or_invoke wIsFn wCallEcho wSerialize wTaskStateB ⟨2, "C"⟩
      "a" (.num 7)).2 true rfl rfl⟩

/-! ## Claim C8 -/

/-- The no-task-argument marker actually sent by the boundary: an object
whose `__cypress_task_no_argument__` property is truthy. -/
def noArgumentMarker : GVal := .obj [("__cypress_task_no_argument__", .bool true)]

def isStrVal : GVal → Bool
  | .str _ => true
  | _ => false

/-- C8 counterexample: the claim describes the no-task-argument sentinel as
an opaque fixed *string* value compared by equality, with every other
argument passed through unchanged.  But `taskExecute` decodes by checking the
`__cypress_task_no_argument__` property: the marker object — not a string,
hence not equal to any fixed string sentinel — is decoded to `undefined`
instead of being passed through unchanged. -/
theorem C8_counterexample :
    decodeTaskArg noArgumentMarker = .undef
    ∧ isStrVal noArgumentMarker = false
    ∧ noArgumentMarker ≠ .undef :=
  ⟨rfl, rfl, fun h => GVal.noConfusion h⟩

/-- C8 amended: the no-task-argument marker is not a fixed string compared by
equality; `taskExecute` treats any truthy `args[1]` whose
`__cypress_task_no_argument__` property is truthy as the marker and passes
`undefined` to the handler in its place, and passes every other argument
value through to the handler unchanged. -/
theorem C8_no_argument_decode {C E SE : Type} (isFn : C → Bool)
    (callFn : C → List GVal → Except E GVal) (serializeError : E → SE)
    (s : RegState C) (ids : Ids) (task : String) (rawArg : GVal) (hdl : C)
    (hlook : taskLookup s task ids.eventId = some hdl) (hfn : isFn hdl = true) :
    ((truthy rawArg && truthy (getField rawArg "__cypress_task_no_argument__")) = true →
      taskExecute isFn callFn serializeError s ids task rawArg =
        sentOf serializeError (callFn hdl [.undef]) ids.invocationId)
    ∧ ((truthy rawArg && truthy (getField rawArg "__cypress_task_no_argument__")) = false →
      taskExecute isFn callFn serializeError s ids task rawArg =
        sentOf serializeError (callFn hdl [rawArg]) ids.invocationId) := by
  constructor
  · intro hc
    rw [taskExecute_eq_sentOf isFn callFn serializeError s ids task rawArg hlook hfn]
    rw [show decodeTaskArg rawArg = .undef by simp [decodeTaskArg, hc]]
  · intro hc
    rw [taskExecute_eq_sentOf isFn callFn serializeError s ids task rawArg hlook hfn]
    rw [show decodeTaskArg rawArg = rawArg by simp [decodeTaskArg, hc]]

/-- Witness for C8: the marker object decodes to `undefined`, the plain
value `7` is passed through unchanged. -/
theorem C8_witness :
    (taskExecute wIsFn wCallEcho wSerialize wTaskStateB ⟨2, "A"⟩ "a" noArgumentMarker
        = sentOf wSerialize (wCallEcho true [.undef]) "A")
    ∧ (taskExecute wIsFn wCallEcho wSerialize wTaskStateB ⟨2, "B"⟩ "a" (.num 7)
        = sentOf wSerialize (wCallEcho true [.num 7]) "B") :=
  ⟨(C8_no_argument_decode wIsFn wCallEcho wSerialize wTaskStateB ⟨2, "A"⟩ "a"
      noArgumentMarker true rfl rfl).1 rfl,
   (C8_no_argument_decode wIsFn wCallEcho wSerialize wTaskStateB ⟨2, "B"⟩ "a"
      (.num 7) true rfl rfl).2 rfl⟩

/-! ## Claim C9 -/

/-- C9: If no Registration with event `"task"` exists, `_get:task:keys` and
`_get:task:body` throw synchronously (a `TypeError` from dereferencing the
missing lookup result) instead of reporting an invocation outcome; when a
`"task"` Registration exists, both report a well-formed outcome (null error,
some value) under the caller-supplied invocationId. -/
theorem C9_task_introspection_requires_registration {C E SE : Type}
    (isFn : C → Bool) (toSource : C → String) (serializeError : E → SE)
    (s : RegState C) (ids : Ids) (event : String) :
    (findTaskEntry s = none →
      taskGetKeys serializeError s ids = .error .typeErr
      ∧ taskGetBody isFn toSource serializeError s ids event = .error .typeErr)
    ∧ (∀ entry, findTaskEntry s = some entry →
      (∃ v, taskGetKeys serializeError s ids
          = .ok ⟨"promise:fulfilled:" ++ ids.invocationId, none, some v⟩)
      ∧ (∃ v, taskGetBody isFn toSource serializeError s ids event
          = .ok ⟨"promise:fulfilled:" ++ ids.invocationId, none, some v⟩)) := by
  constructor
  · intro h
    constructor
    · simp only [taskGetKeys, h]
    · simp only [taskGetBody, h]
  · intro entry h
    constructor
    · exact ⟨_, by simp only [taskGetKeys, h]; rfl⟩
    · exact ⟨_, by simp only [taskGetBody, h]; rfl⟩

/-- Witness for C9: the session with only a dev-server Registration has no
`"task"` entry, so both introspection commands throw; the session with a
`"task"` Registration reports well-formed outcomes. -/
theorem C9_witness :
    (taskGetKeys wSerialize wDevState ⟨0, "A"⟩ = .error .typeErr
      ∧ taskGetBody (fun _ => true) (fun _ => "src") wSerialize wDevState ⟨0, "A"⟩ "a"
          = .error .typeErr)
    ∧ ((∃ v, taskGetKeys wSerialize wTaskState ⟨0, "B"⟩
          = .ok ⟨"promise:fulfilled:" ++ "B", none, some v⟩)
      ∧ (∃ v, taskGetBody (fun _ => true) (fun _ => "src") wSerialize wTaskState ⟨0, "B"⟩ "a"
          = .ok ⟨"promise:fulfilled:" ++ "B", none, some v⟩)) :=
  ⟨(C9_task_introspection_requires_registration (fun _ => true) (fun _ => "src")
      wSerialize wDevState ⟨0, "A"⟩ "a").1 rfl,
   (C9_task_introspection_requires_registration (fun _ => true) (fun _ => "src")
      wSerialize wTaskState ⟨0, "B"⟩ "a").2 ⟨"task", .obj [("a", ())]⟩ rfl⟩

/-! ## The configuration migration guard

`wrapNonMigratedOptions` (run_plugins.js:292-307) installs setter-only
accessors (`GVal.trap` slots) on the forbidden keys; on a data property this
replaces the value slot, so later reads yield `undefined` while writes throw.
`Object.defineProperty` on a primitive throws a `TypeError`.  Aliasing
between the `component` and `e2e` sub-objects is not modelled (the pure
model copies tables); no claim depends on it. -/

/-- Values not allowed in 10.X+ in the root, e2e and component config. -/
def optionsNonValidFor10Anywhere : List String :=
  ["integrationFolder", "componentFolder", "pluginsFile"]

/-- Values not allowed in 10.X+ in the root that have moved into one of the
testing types. -/
def optionsNonValidFor10Global : List String := ["baseUrl", "supportFile"]

/-- `setInvalidPropSetterWarning(opts, key, keyForError)`: installs the
throwing setter.  On a primitive, `Object.defineProperty` throws. -/
def defineTrap (v : GVal) (key keyForError : String) : Except CypressErr GVal :=
  match v with
  | .obj props => .ok (.obj (setKey props key (.trap keyForError)))
  | _ => .error .typeErr

/-- A plain property assignment `v[key] = newVal`: writing a trapped slot
invokes the installed setter, which throws `MIGRATED_OPTION_INVALID` with
the trap's key path; assignment to a property of a primitive is a silent
no-op in non-strict mode. -/
def assignProp (v : GVal) (key : String) (newVal : GVal) : Except CypressErr GVal :=
  match v with
  | .obj props =>
    match lookupKey props key with
    | some (.trap keyForError) => .error (.migratedOption keyForError)
    | _ => .ok (.obj (setKey props key newVal))
  | _ => .ok v

/-- The property table produced by reading `options[testingType]` for the
`options[testingType] || ` fallback: the testing-type value's table when it
reads back as an object, else a fresh empty table. -/
def subBase (v : GVal) (tt : String) : List (String × GVal) :=
  match getField v tt with
  | .obj ps => ps
  | _ => []

/-- One testing-type step inside the anywhere-loop body
(run_plugins.js:302-305): ensure the sub-object exists, then install the
scoped trap on it (in place, modelled by writing the table back). -/
def ensureAndTrap (v : GVal) (tt key : String) : Except CypressErr GVal := do
  let cur := getField v tt
  let sub := if truthy cur then cur else .obj []
  let v1 ← assignProp v tt sub
  let sub1 ← defineTrap sub key (tt ++ "." ++ key)
  assignProp v1 tt sub1

/-- The `optionsNonValidFor10Global.forEach` loop. -/
def trapKeys (v : GVal) : List String → Except CypressErr GVal
  | [] => .ok v
  | k :: ks => do
    let v1 ← defineTrap v k k
    trapKeys v1 ks

/-- The `optionsNonValidFor10Anywhere.forEach` loop: trap the key at top
level, then handle the `component` and `e2e` sub-objects in that order. -/
def wrapAnywhereKeys (v : GVal) : List String → Except CypressErr GVal
  | [] => .ok v
  | k :: ks => do
    let v1 ← defineTrap v k k
    let v2 ← ensureAndTrap v1 "component" k
    let v3 ← ensureAndTrap v2 "e2e" k
    wrapAnywhereKeys v3 ks

/-- `wrapNonMigratedOptions(options)` (run_plugins.js:292-307). -/
def wrapNonMigratedOptions (options : GVal) : Except CypressErr GVal := do
  let v1 ← trapKeys options optionsNonValidFor10Global
  wrapAnywhereKeys v1 optionsNonValidFor10Anywhere

/-- The `testingTypes.forEach` check inside `validateNonMigratedOptions`:
`if (options[testingType] && options[testingType][key]) throw …`. -/
def checkTestingTypes (opts : GVal) (key : String) :
    List String → Except CypressErr Unit
  | [] => .ok ()
  | tt :: tts =>
    if truthy (getField opts tt) && truthy (getField (getField opts tt) key) then
      .error (.migratedOption (tt ++ "." ++ key))
    else checkTestingTypes opts key tts

/-- The `optionsNonValidFor10Global.forEach` check. -/
def checkGlobalKeys (opts : GVal) : List String → Except CypressErr Unit
  | [] => .ok ()
  | k :: ks =>
    if truthy (getField opts k) then .error (.migratedOption k)
    else checkGlobalKeys opts ks

/-- The `optionsNonValidFor10Anywhere.forEach` check: top level first, then
each testing type. -/
def checkAnywhereKeys (opts : GVal) : List String → Except CypressErr Unit
  | [] => .ok ()
  | k :: ks =>
    if truthy (getField opts k) then .error (.migratedOption k)
    else
      match checkTestingTypes opts k ["component", "e2e"] with
      | .error e => .error e
      | .ok _ => checkAnywhereKeys opts ks

/-- `validateNonMigratedOptions(options)` (run_plugins.js:309-329): a throw
escapes the whole scan, so the first offending key wins. -/
def validateNonMigratedOptions (opts : GVal) : Except CypressErr Unit :=
  match checkGlobalKeys opts optionsNonValidFor10Global with
  | .error e => .error e
  | .ok _ => checkAnywhereKeys opts optionsNonValidFor10Anywhere

/-- The property table after one full anywhere-loop iteration on key `k`,
starting from top-level table `props`. -/
def anyKeyStep (props : List (String × GVal)) (k : String) : List (String × GVal) :=
  let p1 := setKey props k (.trap k)
  let p2 := setKey p1 "component"
    (.obj (setKey (subBase (.obj p1) "component") k (.trap ("component." ++ k))))
  setKey p2 "e2e"
    (.obj (setKey (subBase (.obj p2) "e2e") k (.trap ("e2e." ++ k))))

/-- The top-level property table produced by a successful
`wrapNonMigratedOptions` on input table `P`. -/
def installProps (P : List (String × GVal)) : List (String × GVal) :=
  optionsNonValidFor10Anywhere.foldl anyKeyStep
    (optionsNonValidFor10Global.foldl (fun Q k => setKey Q k (.trap k)) P)

/-- The configuration object produced by a successful install (`undef` when
the install throws). -/
def installResult (cfg : GVal) : GVal :=
  match wrapNonMigratedOptions cfg with
  | .ok g => g
  | .error _ => .undef

def exceptIsOk {ε α : Type} : Except ε α → Bool
  | .ok _ => true
  | .error _ => false

/-! ### Characterizing a successful install -/

theorem except_bind_ok {ε α β : Type} {a : Except ε α} {f : α → Except ε β} {b : β}
    (h : (a >>= f) = .ok b) : ∃ x, a = .ok x ∧ f x = .ok b := by
  cases a with
  | ok x => exact ⟨x, rfl, h⟩
  | error e => exact Except.noConfusion h

theorem assignProp_obj_ok {X : List (String × GVal)} {key : String} {nv w : GVal}
    (h : assignProp (.obj X) key nv = .ok w) : w = .obj (setKey X key nv) := by
  simp only [assignProp] at h
  cases hs : lookupKey X key with
  | none =>
    rw [hs] at h
    injection h with h'
    exact h'.symm
  | some gv =>
    rw [hs] at h
    cases gv with
    | trap k => exact Except.noConfusion h
    | undef => injection h with h'; exact h'.symm
    | jsNull => injection h with h'; exact h'.symm
    | bool b => injection h with h'; exact h'.symm
    | num n => injection h with h'; exact h'.symm
    | str s => injection h with h'; exact h'.symm
    | arr l => injection h with h'; exact h'.symm
    | obj ps => injection h with h'; exact h'.symm

theorem defineTrap_ok {v : GVal} {key kfe : String} {w : GVal}
    (h : defineTrap v key kfe = .ok w) :
    ∃ ps, v = .obj ps ∧ w = .obj (setKey ps key (.trap kfe)) := by
  cases v with
  | obj ps =>
    refine ⟨ps, rfl, ?_⟩
    unfold defineTrap at h
    injection h with h'
    exact h'.symm
  | undef => exact Except.noConfusion h
  | jsNull => exact Except.noConfusion h
  | bool b => exact Except.noConfusion h
  | num n => exact Except.noConfusion h
  | str s => exact Except.noConfusion h
  | arr l => exact Except.noConfusion h
  | trap k => exact Except.noConfusion h

theorem subBase_eq_of_obj {v : GVal} {tt : String} {ps : List (String × GVal)}
    (h : getField v tt = .obj ps) : subBase v tt = ps := by
  unfold subBase
  rw [h]

theorem subBase_eq_nil_of_not_truthy {v : GVal} {tt : String}
    (h : ¬ truthy (getField v tt) = true) : subBase v tt = [] := by
  unfold subBase
  cases hgf : getField v tt with
  | obj ps => rw [hgf] at h; exact absurd rfl h
  | undef => rfl
  | jsNull => rfl
  | bool b => rfl
  | num n => rfl
  | str s => rfl
  | arr l => rfl
  | trap k => rfl

theorem ensureAndTrap_ok {X : List (String × GVal)} {tt key : String} {w : GVal}
    (h : ensureAndTrap (.obj X) tt key = .ok w) :
    w = .obj (setKey X tt
      (.obj (setKey (subBase (.obj X) tt) key (.trap (tt ++ "." ++ key))))) := by
  simp only [ensureAndTrap] at h
  obtain ⟨v1, h1, h'⟩ := except_bind_ok h
  obtain ⟨sub1, h2, h3⟩ := except_bind_ok h'
  by_cases hcur : truthy (getField (.obj X) tt) = true
  · rw [if_pos hcur] at h1 h2
    obtain ⟨ps, hps, hsub1⟩ := defineTrap_ok h2
    have hv1 := assignProp_obj_ok h1
    rw [hv1] at h3
    have hw := assignProp_obj_ok h3
    rw [hw, setKey_setKey, hsub1, subBase_eq_of_obj hps]
  · rw [if_neg hcur] at h1 h2
    obtain ⟨ps, hps, hsub1⟩ := defineTrap_ok h2
    have hps' : ps = [] := by injection hps with h''; exact h''.symm
    have hv1 := assignProp_obj_ok h1
    rw [hv1] at h3
    have hw := assignProp_obj_ok h3
    rw [hw, setKey_setKey, hsub1, hps', subBase_eq_nil_of_not_truthy hcur]

theorem trapKeys_obj_ok :
    ∀ {ks : List String} {P : List (String × GVal)} {w : GVal},
    trapKeys (.obj P) ks = .ok w →
    w = .obj (ks.foldl (fun Q k => setKey Q k (.trap k)) P)
  | [], P, w, h => by
    unfold trapKeys at h
    injection h with h'
    exact h'.symm
  | k :: ks, P, w, h => by
    simp only [trapKeys] at h
    obtain ⟨v1, h1, h2⟩ := except_bind_ok h
    obtain ⟨ps, hps, hv1⟩ := defineTrap_ok h1
    have hP : ps = P := by injection hps with h''; exact h''.symm
    rw [hP] at hv1
    rw [hv1] at h2
    rw [List.foldl_cons]
    exact trapKeys_obj_ok h2

theorem wrapAnywhereKeys_obj_ok :
    ∀ {ks : List String} {P : List (String × GVal)} {w : GVal},
    wrapAnywhereKeys (.obj P) ks = .ok w →
    w = .obj (ks.foldl anyKeyStep P)
  | [], P, w, h => by
    unfold wrapAnywhereKeys at h
    injection h with h'
    exact h'.symm
  | k :: ks, P, w, h => by
    simp only [wrapAnywhereKeys] at h
    obtain ⟨v1, h1, h'⟩ := except_bind_ok h
    obtain ⟨v2, h2, h''⟩ := except_bind_ok h'
    obtain ⟨v3, h3, h4⟩ := except_bind_ok h''
    obtain ⟨ps, hps, hv1⟩ := defineTrap_ok h1
    have hP : ps = P := by injection hps with he; exact he.symm
    rw [hP] at hv1
    rw [hv1] at h2
    have hv2 := ensureAndTrap_ok h2
    rw [hv2] at h3
    have hv3 := ensureAndTrap_ok h3
    rw [hv3] at h4
    rw [List.foldl_cons]
    refine (wrapAnywhereKeys_obj_ok h4).trans ?_
    rw [anyKeyStep]
    rfl

theorem wrapNonMigratedOptions_ok {cfg g : GVal}
    (h : wrapNonMigratedOptions cfg = .ok g) :
    ∃ P, cfg = .obj P ∧ g = .obj (installProps P) := by
  simp only [wrapNonMigratedOptions] at h
  obtain ⟨v1, h1, h2⟩ := except_bind_ok h
  have hobj : ∃ P, cfg = .obj P := by
    simp only [optionsNonValidFor10Global, trapKeys] at h1
    obtain ⟨u, hu, _⟩ := except_bind_ok h1
    obtain ⟨P, hP, _⟩ := defineTrap_ok hu
    exact ⟨P, hP⟩
  obtain ⟨P, hP⟩ := hobj
  rw [hP] at h1
  have hv1 := trapKeys_obj_ok h1
  rw [hv1] at h2
  refine ⟨P, hP, ?_⟩
  rw [wrapAnywhereKeys_obj_ok h2]
  rfl

/-! ### Property slots of the installed guard object -/

theorem getField_obj_setKey_ne {X : List (String × GVal)} {a tt : String} {v : GVal}
    (h : tt ≠ a) : getField (.obj (setKey X a v)) tt = getField (.obj X) tt := by
  simp only [getField]
  rw [lookupKey_setKey_ne _ _ _ _ h]

theorem subBase_setKey_ne {X : List (String × GVal)} {a tt : String} {v : GVal}
    (h : tt ≠ a) : subBase (.obj (setKey X a v)) tt = subBase (.obj X) tt := by
  simp only [subBase]
  rw [getField_obj_setKey_ne h]

theorem lookupKey_anyKeyStep_other {B : List (String × GVal)} {k k' : String}
    (h1 : k' ≠ k) (h2 : k' ≠ "component") (h3 : k' ≠ "e2e") :
    lookupKey (anyKeyStep B k) k' = lookupKey B k' := by
  simp only [anyKeyStep]
  rw [lookupKey_setKey_ne _ _ _ _ h3, lookupKey_setKey_ne _ _ _ _ h2,
    lookupKey_setKey_ne _ _ _ _ h1]

theorem lookupKey_anyKeyStep_self {B : List (String × GVal)} {k : String}
    (h2 : k ≠ "component") (h3 : k ≠ "e2e") :
    lookupKey (anyKeyStep B k) k = some (.trap k) := by
  simp only [anyKeyStep]
  rw [lookupKey_setKey_ne _ _ _ _ h3, lookupKey_setKey_ne _ _ _ _ h2,
    lookupKey_setKey_self]

theorem lookupKey_anyKeyStep_component {B : List (String × GVal)} {k : String}
    (h1 : k ≠ "component") :
    lookupKey (anyKeyStep B k) "component"
      = some (.obj (setKey (subBase (.obj B) "component") k
          (.trap ("component." ++ k)))) := by
  simp only [anyKeyStep]
  rw [lookupKey_setKey_ne _ _ _ _ (by decide : ("component" : String) ≠ "e2e")]
  rw [lookupKey_setKey_self]
  rw [subBase_setKey_ne (Ne.symm h1)]

theorem lookupKey_anyKeyStep_e2e {B : List (String × GVal)} {k : String}
    (h2 : k ≠ "e2e") :
    lookupKey (anyKeyStep B k) "e2e"
      = some (.obj (setKey (subBase (.obj B) "e2e") k (.trap ("e2e." ++ k)))) := by
  simp only [anyKeyStep]
  rw [lookupKey_setKey_self]
  rw [subBase_setKey_ne (by decide : ("e2e" : String) ≠ "component")]
  rw [subBase_setKey_ne (Ne.symm h2)]

theorem getField_anyKeyStep_component {B : List (String × GVal)} {k : String}
    (h1 : k ≠ "component") :
    getField (.obj (anyKeyStep B k)) "component"
      = .obj (setKey (subBase (.obj B) "component") k (.trap ("component." ++ k))) := by
  simp only [getField]
  rw [lookupKey_anyKeyStep_component h1]

theorem getField_anyKeyStep_e2e {B : List (String × GVal)} {k : String}
    (h2 : k ≠ "e2e") :
    getField (.obj (anyKeyStep B k)) "e2e"
      = .obj (setKey (subBase (.obj B) "e2e") k (.trap ("e2e." ++ k))) := by
  simp only [getField]
  rw [lookupKey_anyKeyStep_e2e h2]

theorem subBase_anyKeyStep_component {B : List (String × GVal)} {k : String}
    (h1 : k ≠ "component") :
    subBase (.obj (anyKeyStep B k)) "component"
      = setKey (subBase (.obj B) "component") k (.trap ("component." ++ k)) := by
  simp only [subBase]
  rw [getField_anyKeyStep_component h1]
  rfl

theorem subBase_anyKeyStep_e2e {B : List (String × GVal)} {k : String}
    (h2 : k ≠ "e2e") :
    subBase (.obj (anyKeyStep B k)) "e2e"
      = setKey (subBase (.obj B) "e2e") k (.trap ("e2e." ++ k)) := by
  simp only [subBase]
  rw [getField_anyKeyStep_e2e h2]
  rfl

theorem installProps_def (P : List (String × GVal)) :
    installProps P = anyKeyStep (anyKeyStep (anyKeyStep
      (setKey (setKey P "baseUrl" (.trap "baseUrl")) "supportFile" (.trap "supportFile"))
      "integrationFolder") "componentFolder") "pluginsFile" := by
  simp only [installProps, optionsNonValidFor10Anywhere, optionsNonValidFor10Global,
    List.foldl_cons, List.foldl_nil]

theorem lookupKey_installProps_forbidden {P : List (String × GVal)} {k : String}
    (hk : k ∈ optionsNonValidFor10Global ++ optionsNonValidFor10Anywhere) :
    lookupKey (installProps P) k = some (.trap k) := by
  rw [installProps_def]
  have hk5 : k = "baseUrl" ∨ k = "supportFile" ∨ k = "integrationFolder" ∨
      k = "componentFolder" ∨ k = "pluginsFile" := by
    simpa [optionsNonValidFor10Global, optionsNonValidFor10Anywhere] using hk
  rcases hk5 with rfl | rfl | rfl | rfl | rfl
  · rw [lookupKey_anyKeyStep_other (by decide) (by decide) (by decide),
      lookupKey_anyKeyStep_other (by decide) (by decide) (by decide),
      lookupKey_anyKeyStep_other (by decide) (by decide) (by decide),
      lookupKey_setKey_ne _ _ _ _ (by decide), lookupKey_setKey_self]
  · rw [lookupKey_anyKeyStep_other (by decide) (by decide) (by decide),
      lookupKey_anyKeyStep_other (by decide) (by decide) (by decide),
      lookupKey_anyKeyStep_other (by decide) (by decide) (by decide),
      lookupKey_setKey_self]
  · rw [lookupKey_anyKeyStep_other (by decide) (by decide) (by decide),
      lookupKey_anyKeyStep_other (by decide) (by decide) (by decide),
      lookupKey_anyKeyStep_self (by decide) (by decide)]
  · rw [lookupKey_anyKeyStep_other (by decide) (by decide) (by decide),
      lookupKey_anyKeyStep_self (by decide) (by decide)]
  · rw [lookupKey_anyKeyStep_self (by decide) (by decide)]

theorem lookupKey_installProps_component (P : List (String × GVal)) :
    lookupKey (installProps P) "component"
      = some (.obj (setKey (setKey (setKey (subBase (.obj P) "component")
          "integrationFolder" (.trap "component.integrationFolder"))
          "componentFolder" (.trap "component.componentFolder"))
          "pluginsFile" (.trap "component.pluginsFile"))) := by
  rw [installProps_def]
  rw [lookupKey_anyKeyStep_component (by decide)]
  rw [subBase_anyKeyStep_component (by decide)]
  rw [subBase_anyKeyStep_component (by decide)]
  rw [subBase_setKey_ne (by decide : ("component" : String) ≠ "supportFile")]
  rw [subBase_setKey_ne (by decide : ("component" : String) ≠ "baseUrl")]
  rfl

theorem lookupKey_installProps_e2e (P : List (String × GVal)) :
    lookupKey (installProps P) "e2e"
      = some (.obj (setKey (setKey (setKey (subBase (.obj P) "e2e")
          "integrationFolder" (.trap "e2e.integrationFolder"))
          "componentFolder" (.trap "e2e.componentFolder"))
          "pluginsFile" (.trap "e2e.pluginsFile"))) := by
  rw [installProps_def]
  rw [lookupKey_anyKeyStep_e2e (by decide)]
  rw [subBase_anyKeyStep_e2e (by decide)]
  rw [subBase_anyKeyStep_e2e (by decide)]
  rw [subBase_setKey_ne (by decide : ("e2e" : String) ≠ "supportFile")]
  rw [subBase_setKey_ne (by decide : ("e2e" : String) ≠ "baseUrl")]
  rfl

/-! ### The post-setup validation scan -/

theorem truthy_getField_of_nested {opts : GVal} {tt k : String}
    (h : truthy (getField (getField opts tt) k) = true) :
    truthy (getField opts tt) = true := by
  cases hgf : getField opts tt with
  | obj ps => rfl
  | undef => rw [hgf] at h; exact Bool.noConfusion h
  | jsNull => rw [hgf] at h; exact Bool.noConfusion h
  | bool b => rw [hgf] at h; exact Bool.noConfusion h
  | num n => rw [hgf] at h; exact Bool.noConfusion h
  | str s => rw [hgf] at h; exact Bool.noConfusion h
  | arr l => rw [hgf] at h; exact Bool.noConfusion h
  | trap kfe => rw [hgf] at h; exact Bool.noConfusion h

theorem checkGlobalKeys_ok {opts : GVal} :
    ∀ {ks : List String}, checkGlobalKeys opts ks = .ok () →
    ∀ k ∈ ks, truthy (getField opts k) = false
  | [], _, k, hk => by simp at hk
  | k0 :: ks, h, k, hk => by
    unfold checkGlobalKeys at h
    by_cases ht : truthy (getField opts k0) = true
    · rw [if_pos ht] at h
      exact Except.noConfusion h
    · rw [if_neg ht] at h
      rcases List.mem_cons.mp hk with hk0 | hks
      · subst hk0
        simp only [Bool.not_eq_true] at ht
        exact ht
      · exact checkGlobalKeys_ok h k hks

theorem checkTestingTypes_ok {opts : GVal} {key : String} :
    ∀ {tts : List String}, checkTestingTypes opts key tts = .ok () →
    ∀ tt ∈ tts,
      (truthy (getField opts tt) && truthy (getField (getField opts tt) key)) = false
  | [], _, tt, htt => by simp at htt
  | t0 :: tts, h, tt, htt => by
    unfold checkTestingTypes at h
    by_cases hc : (truthy (getField opts t0) &&
        truthy (getField (getField opts t0) key)) = true
    · rw [if_pos hc] at h
      exact Except.noConfusion h
    · rw [if_neg hc] at h
      rcases List.mem_cons.mp htt with h0 | hrest
      · subst h0
        simp only [Bool.not_eq_true] at hc
        exact hc
      · exact checkTestingTypes_ok h tt hrest

theorem checkAnywhereKeys_ok {opts : GVal} :
    ∀ {ks : List String}, checkAnywhereKeys opts ks = .ok () →
    ∀ k ∈ ks, truthy (getField opts k) = false
      ∧ checkTestingTypes opts k ["component", "e2e"] = .ok ()
  | [], _, k, hk => by simp at hk
  | k0 :: ks, h, k, hk => by
    unfold checkAnywhereKeys at h
    by_cases ht : truthy (getField opts k0) = true
    · rw [if_pos ht] at h
      exact Except.noConfusion h
    · rw [if_neg ht] at h
      cases hct : checkTestingTypes opts k0 ["component", "e2e"] with
      | error e => rw [hct] at h; exact Except.noConfusion h
      | ok u =>
        rw [hct] at h
        rcases List.mem_cons.mp hk with hk0 | hks
        · subst hk0
          simp only [Bool.not_eq_true] at ht
          exact ⟨ht, by rw [hct]⟩
        · exact checkAnywhereKeys_ok h k hks

theorem checkGlobalKeys_error {opts : GVal} :
    ∀ {ks : List String} {e : CypressErr}, checkGlobalKeys opts ks = .error e →
    ∃ k, e = .migratedOption k
  | [], _, h => Except.noConfusion h
  | k0 :: ks, e, h => by
    unfold checkGlobalKeys at h
    by_cases ht : truthy (getField opts k0) = true
    · rw [if_pos ht] at h
      refine ⟨k0, ?_⟩
      injection h with h'
      exact h'.symm
    · rw [if_neg ht] at h
      exact checkGlobalKeys_error h

theorem checkTestingTypes_error {opts : GVal} {key : String} :
    ∀ {tts : List String} {e : CypressErr}, checkTestingTypes opts key tts = .error e →
    ∃ k', e = .migratedOption k'
  | [], _, h => Except.noConfusion h
  | t0 :: tts, e, h => by
    unfold checkTestingTypes at h
    by_cases hc : (truthy (getField opts t0) &&
        truthy (getField (getField opts t0) key)) = true
    · rw [if_pos hc] at h
      refine ⟨t0 ++ "." ++ key, ?_⟩
      injection h with h'
      exact h'.symm
    · rw [if_neg hc] at h
      exact checkTestingTypes_error h

theorem checkAnywhereKeys_error {opts : GVal} :
    ∀ {ks : List String} {e : CypressErr}, checkAnywhereKeys opts ks = .error e →
    ∃ k, e = .migratedOption k
  | [], _, h => Except.noConfusion h
  | k0 :: ks, e, h => by
    unfold checkAnywhereKeys at h
    by_cases ht : truthy (getField opts k0) = true
    · rw [if_pos ht] at h
      refine ⟨k0, ?_⟩
      injection h with h'
      exact h'.symm
    · rw [if_neg ht] at h
      cases hct : checkTestingTypes opts k0 ["component", "e2e"] with
      | error e' =>
        rw [hct] at h
        have he : e' = e := by injection h
        obtain ⟨k', hk'⟩ := checkTestingTypes_error hct
        exact ⟨k', he ▸ hk'⟩
      | ok u =>
        rw [hct] at h
        exact checkAnywhereKeys_error h

theorem validateNonMigratedOptions_error {opts : GVal} {e : CypressErr}
    (h : validateNonMigratedOptions opts = .error e) : ∃ k, e = .migratedOption k := by
  unfold validateNonMigratedOptions at h
  cases hg : checkGlobalKeys opts optionsNonValidFor10Global with
  | error e' =>
    rw [hg] at h
    have he : e' = e := by injection h
    exact he ▸ checkGlobalKeys_error hg
  | ok u =>
    rw [hg] at h
    exact checkAnywhereKeys_error h

theorem validateNonMigratedOptions_ok {opts : GVal}
    (h : validateNonMigratedOptions opts = .ok ()) :
    checkGlobalKeys opts optionsNonValidFor10Global = .ok ()
    ∧ checkAnywhereKeys opts optionsNonValidFor10Anywhere = .ok () := by
  unfold validateNonMigratedOptions at h
  cases hg : checkGlobalKeys opts optionsNonValidFor10Global with
  | error e' => rw [hg] at h; exact Except.noConfusion h
  | ok u => rw [hg] at h; exact ⟨rfl, h⟩

theorem getField_installProps_component (P : List (String × GVal)) :
    getField (.obj (installProps P)) "component"
      = .obj (setKey (setKey (setKey (subBase (.obj P) "component")
          "integrationFolder" (.trap "component.integrationFolder"))
          "componentFolder" (.trap "component.componentFolder"))
          "pluginsFile" (.trap "component.pluginsFile")) := by
  simp only [getField]
  rw [lookupKey_installProps_component]

theorem getField_installProps_e2e (P : List (String × GVal)) :
    getField (.obj (installProps P)) "e2e"
      = .obj (setKey (setKey (setKey (subBase (.obj P) "e2e")
          "integrationFolder" (.trap "e2e.integrationFolder"))
          "componentFolder" (.trap "e2e.componentFolder"))
          "pluginsFile" (.trap "e2e.pluginsFile")) := by
  simp only [getField]
  rw [lookupKey_installProps_e2e]

theorem lookupKey_installProps_other {P : List (String × GVal)} {k' : String}
    (h1 : k' ∉ optionsNonValidFor10Global) (h2 : k' ∉ optionsNonValidFor10Anywhere)
    (h3 : k' ≠ "component") (h4 : k' ≠ "e2e") :
    lookupKey (installProps P) k' = lookupKey P k' := by
  obtain ⟨hbu, hsf⟩ : k' ≠ "baseUrl" ∧ k' ≠ "supportFile" := by
    simpa [optionsNonValidFor10Global] using h1
  obtain ⟨hif, hcf, hpf⟩ :
      k' ≠ "integrationFolder" ∧ k' ≠ "componentFolder" ∧ k' ≠ "pluginsFile" := by
    simpa [optionsNonValidFor10Anywhere] using h2
  rw [installProps_def]
  rw [lookupKey_anyKeyStep_other hpf h3 h4, lookupKey_anyKeyStep_other hcf h3 h4,
    lookupKey_anyKeyStep_other hif h3 h4, lookupKey_setKey_ne _ _ _ _ hsf,
    lookupKey_setKey_ne _ _ _ _ hbu]

/-! ## Claim C3 -/

/-- C3: On the guarded configuration object, every assignment to a forbidden
top-level key throws the migrated-option error naming exactly that key, and
every assignment to an anywhere-forbidden key on the `component` or `e2e`
sub-object throws it naming the scoped path; and the post-setup validation
over a returned configuration object throws the same error kind whenever any
such key is present with a truthy value, at top level or (for the anywhere
set) under `e2e` or `component`. -/
theorem C3_migrated_option_errors {cfg g : GVal}
    (hg : wrapNonMigratedOptions cfg = .ok g) :
    (∀ k ∈ optionsNonValidFor10Global ++ optionsNonValidFor10Anywhere,
      ∀ v, assignProp g k v = .error (.migratedOption k))
    ∧ (∀ tt ∈ (["component", "e2e"] : List String),
        ∀ k ∈ optionsNonValidFor10Anywhere,
        ∀ v, assignProp (getField g tt) k v
          = .error (.migratedOption (tt ++ "." ++ k)))
    ∧ (∀ opts : GVal,
        ((∃ k, k ∈ optionsNonValidFor10Global ++ optionsNonValidFor10Anywhere ∧
            truthy (getField opts k) = true)
          ∨ (∃ tt, tt ∈ (["component", "e2e"] : List String) ∧
              ∃ k, k ∈ optionsNonValidFor10Anywhere ∧
                truthy (getField (getField opts tt) k) = true)) →
        ∃ k', validateNonMigratedOptions opts = .error (.migratedOption k')) := by
  obtain ⟨P, hcfg, hgP⟩ := wrapNonMigratedOptions_ok hg
  subst hgP
  refine ⟨?_, ?_, ?_⟩
  · intro k hk v
    simp only [assignProp]
    rw [lookupKey_installProps_forbidden hk]
  · intro tt htt k hk v
    have htt2 : tt = "component" ∨ tt = "e2e" := by simpa using htt
    have hk3 : k = "integrationFolder" ∨ k = "componentFolder" ∨ k = "pluginsFile" := by
      simpa [optionsNonValidFor10Anywhere] using hk
    rcases htt2 with rfl | rfl
    · rw [getField_installProps_component]
      simp only [assignProp]
      rcases hk3 with rfl | rfl | rfl
      · rw [lookupKey_setKey_ne _ _ _ _ (by decide),
          lookupKey_setKey_ne _ _ _ _ (by decide), lookupKey_setKey_self]
        rfl
      · rw [lookupKey_setKey_ne _ _ _ _ (by decide), lookupKey_setKey_self]
        rfl
      · rw [lookupKey_setKey_self]
        rfl
    · rw [getField_installProps_e2e]
      simp only [assignProp]
      rcases hk3 with rfl | rfl | rfl
      · rw [lookupKey_setKey_ne _ _ _ _ (by decide),
          lookupKey_setKey_ne _ _ _ _ (by decide), lookupKey_setKey_self]
        rfl
      · rw [lookupKey_setKey_ne _ _ _ _ (by decide), lookupKey_setKey_self]
        rfl
      · rw [lookupKey_setKey_self]
        rfl
  · intro opts hbad
    cases hres : validateNonMigratedOptions opts with
    | error e =>
      obtain ⟨k', hk'⟩ := validateNonMigratedOptions_error hres
      exact ⟨k', by rw [hk']⟩
    | ok u =>
      exfalso
      obtain ⟨hglob, hany⟩ := validateNonMigratedOptions_ok hres
      rcases hbad with ⟨k, hk, htr⟩ | ⟨tt, htt, k, hk, htr⟩
      · rcases List.mem_append.mp hk with hkg | hka
        · have hfalse := checkGlobalKeys_ok hglob k hkg
          rw [hfalse] at htr
          exact Bool.noConfusion htr
        · have hfalse := (checkAnywhereKeys_ok hany k hka).1
          rw [hfalse] at htr
          exact Bool.noConfusion htr
      · have hct := (checkAnywhereKeys_ok hany k hk).2
        have hfalse := checkTestingTypes_ok hct tt htt
        have httr : truthy (getField opts tt) = true := truthy_getField_of_nested htr
        rw [httr, htr] at hfalse
        exact Bool.noConfusion hfalse

/-- Witness for C3: on the guard installed over an empty configuration,
assigning `baseUrl` at top level and `e2e.integrationFolder` on the
sub-object both throw, and validation of a returned configuration carrying a
truthy `baseUrl` throws the same error kind. -/
theorem C3_witness :
    assignProp (installResult (.obj [])) "baseUrl" (.str "s")
        = .error (.migratedOption "baseUrl")
    ∧ assignProp (getField (installResult (.obj [])) "e2e") "integrationFolder" (.num 1)
        = .error (.migratedOption ("e2e" ++ "." ++ "integrationFolder"))
    ∧ (∃ k', validateNonMigratedOptions (.obj [("baseUrl", .str "http")])
        = .error (.migratedOption k')) :=
  have T := @C3_migrated_option_errors (.obj []) (installResult (.obj [])) rfl
  ⟨T.1 "baseUrl" (by decide) (.str "s"),
   T.2.1 "e2e" (by decide) "integrationFolder" (by decide) (.num 1),
   T.2.2 (.obj [("baseUrl", .str "http")]) (Or.inl ⟨"baseUrl", by decide, rfl⟩)⟩

/-! ## Claim C10 -/

def cfgC10 : GVal := .obj [("baseUrl", .str "http://x"), ("foo", .num 7)]

/-- C10 counterexample: installing the guards does not leave every field
other than `component`/`e2e` with its value.  The install succeeds on a
configuration with `baseUrl` set, yet afterwards `baseUrl` — a field other
than the testing-type keys — reads back `undefined` instead of its original
string: `Object.defineProperty` replaced its data slot with a setter-only
accessor. -/
theorem C10_counterexample :
    exceptIsOk (wrapNonMigratedOptions cfgC10) = true
    ∧ getField cfgC10 "baseUrl" = .str "http://x"
    ∧ getField (installResult cfgC10) "baseUrl" = .undef
    ∧ ("baseUrl" : String) ≠ "component"
    ∧ ("baseUrl" : String) ≠ "e2e" :=
  ⟨rfl, rfl, rfl, by decide, by decide⟩

/-- C10 amended: a successful install creates the `component` and `e2e`
sub-objects (both read back as objects afterwards); every top-level field
other than `component`, `e2e` and the five trapped forbidden keys keeps its
value; the forbidden keys themselves become setter-only trap slots, reading
back `undefined`. -/
theorem C10_install_mutation {cfg g : GVal}
    (h : wrapNonMigratedOptions cfg = .ok g) :
    (∃ ps, getField g "component" = .obj ps)
    ∧ (∃ ps, getField g "e2e" = .obj ps)
    ∧ (∀ k', k' ∉ optionsNonValidFor10Global → k' ∉ optionsNonValidFor10Anywhere →
        k' ≠ "component" → k' ≠ "e2e" → getField g k' = getField cfg k')
    ∧ (∀ k ∈ optionsNonValidFor10Global ++ optionsNonValidFor10Anywhere,
        getField g k = .undef) := by
  obtain ⟨P, hcfg, hgP⟩ := wrapNonMigratedOptions_ok h
  subst hcfg hgP
  refine ⟨⟨_, getField_installProps_component P⟩, ⟨_, getField_installProps_e2e P⟩, ?_, ?_⟩
  · intro k' h1 h2 h3 h4
    simp only [getField]
    rw [lookupKey_installProps_other h1 h2 h3 h4]
  · intro k hk
    simp only [getField]
    rw [lookupKey_installProps_forbidden hk]

/-- Witness for C10 (amended) at the concrete configuration `cfgC10`. -/
theorem C10_witness :
    (∃ ps, getField (installResult cfgC10) "component" = .obj ps)
    ∧ (∃ ps, getField (installResult cfgC10) "e2e" = .obj ps)
    ∧ getField (installResult cfgC10) "foo" = getField cfgC10 "foo"
    ∧ getField (installResult cfgC10) "baseUrl" = .undef :=
  have T := @C10_install_mutation cfgC10 (installResult cfgC10) rfl
  ⟨T.1, T.2.1,
   T.2.2.1 "foo" (by decide) (by decide) (by decide) (by decide),
   T.2.2.2 "baseUrl" (by decide)⟩

end RunPluginsModel
